import Mathlib

/-!
# TcpConnection (old-version/webserver/TcpConnection.cc)

A shallow embedding of the per-connection I/O core.  Every member function of
`TcpConnection` becomes a pure function from the connection's fields to the
new fields together with the list of effects it performed, in program order.

* System calls are inputs: the value returned by `::write` and by
  `Buffer::readFd` is a parameter of the operation that makes the call.
  `::write` returns `-1` or a count; on Linux the count is at most
  `0x7ffff000`, so storing it in `int nwrote` keeps its value and it is
  modelled as an `Int`.
* Payload bytes are never inspected by the code; a byte is a `Nat`.
* `EventLoop`, `Channel`, `Buffer` and `TcpServer` are not part of the source
  file; what the connection uses of them is modelled from the specification.
* `loop_->assertInLoopThread()` holds by construction: the functions that
  assert it are only run by the loop thread in this model.
-/

namespace lfp

abbrev Byte := Nat

/-! ## External collaborators -/

/-- Modelled from the spec: the Buffer type (Buffer.h is not in the source
tree), "append-only growable byte queue with peek/consume/fill-from-descriptor
operations".  Only the readable region is kept. -/
structure Buffer where
  data : List Byte
  deriving DecidableEq, Repr

namespace Buffer

/-- Modelled from the spec: `peek()`, the readable bytes. -/
def peek (b : Buffer) : List Byte := b.data

/-- Modelled from the spec: `readableBytes()`. -/
def readableBytes (b : Buffer) : Nat := b.data.length

/-- Modelled from the spec: `append(data, len)`. -/
def append (b : Buffer) (bytes : List Byte) : Buffer := { data := b.data ++ bytes }

/-- Modelled from the spec: `retrieve(n)` ("consume(n)"), drops the first `n`
readable bytes. -/
def retrieve (b : Buffer) (n : Nat) : Buffer := { data := b.data.drop n }

/-- Modelled from the spec: `retrieveAllAsString()` ("drainAsOwnedBytes"),
returns the readable bytes and leaves the buffer empty. -/
def retrieveAllAsString (b : Buffer) : List Byte × Buffer := (b.data, { data := [] })

/-- Modelled from the spec: `readFd(fd, &savedErrno)`
("fillFromDescriptor").  `n` is the result of the read and `incoming` the
bytes the descriptor had to offer; a positive `n` appends the first `n` of
them, any other result leaves the buffer as it was. -/
def readFd (b : Buffer) (n : Int) (incoming : List Byte) : Buffer :=
  if n > 0 then { data := b.data ++ incoming.take n.toNat } else b

end Buffer

/-- Modelled from the spec: the Event Registration (Channel.h is not in the
source tree), the interest flags of one descriptor and whether the
registration has been detached from the loop by `remove()`. -/
structure Channel where
  reading : Bool
  writing : Bool
  removed : Bool
  deriving DecidableEq, Repr

namespace Channel

/-- Modelled from the spec: `isWriting()`. -/
def isWriting (ch : Channel) : Bool := ch.writing

/-- Modelled from the spec: `enableReading()`. -/
def enableReading (ch : Channel) : Channel := { ch with reading := true }

/-- Modelled from the spec: `disableReading()`. -/
def disableReading (ch : Channel) : Channel := { ch with reading := false }

/-- Modelled from the spec: `enableWriting()`. -/
def enableWriting (ch : Channel) : Channel := { ch with writing := true }

/-- Modelled from the spec: `disableWriting()`. -/
def disableWriting (ch : Channel) : Channel := { ch with writing := false }

/-- Modelled from the spec: `disableAll()`. -/
def disableAll (ch : Channel) : Channel := { ch with reading := false, writing := false }

/-- Modelled from the spec: `remove()`, "detach from the loop's interest set". -/
def remove (ch : Channel) : Channel := { ch with removed := true }

end Channel

/-! ## Effects -/

/-- The functors the connection hands to `loop_->runInLoop`. -/
inductive Task where
  | sendInLoop (message : List Byte)
  | shutdownInLoop
  deriving DecidableEq, Repr

/-- The lines written through `ASYNC_LOG`. -/
inductive LogLine where
  | disconnectedGiveUpWriting
  | sendInLoopWriteError
  | kernelSendBufferIsFull
  | handleReadReadvError
  | sendBufferIsEmpty
  | handleWriteWriteError
  | soError
  deriving DecidableEq, Repr

/-- What an operation does besides updating the fields of the connection. -/
inductive Effect where
  /-- The call `::write(sockfd_, offered, offered.length)` returned `result`. -/
  | write (offered : List Byte) (result : Int)
  /-- The half-close, `::shutdown(sockfd_, SHUT_WR)`. -/
  | shutdownWrite
  /-- The call `loop_->runInLoop(task)`. -/
  | runInLoop (task : Task)
  /-- The removal task, `server_->getMainLoop()->runInLoop(TcpServer::removeConnection, this)`. -/
  | removeConnection
  /-- The call `connectionCallback_(shared_from_this())`. -/
  | connectionCallback
  /-- The call `messageCallback_(shared_from_this(), &inputBuffer_, now)`. -/
  | messageCallback
  /-- The call `::getsockopt(fd, SOL_SOCKET, SO_ERROR, ...)`. -/
  | getsockoptSoError
  | log (line : LogLine)
  deriving DecidableEq, Repr

/-! ## The connection -/

structure TcpConnection where
  connected_ : Bool
  needDisconn_ : Bool
  channel_ : Channel
  inputBuffer_ : Buffer
  outputBuffer_ : Buffer
  deriving DecidableEq, Repr

namespace TcpConnection

/-- The constructor: `connected_(false)`, `needDisconn_(false)`, a channel
with no interest and two empty buffers. -/
def new : TcpConnection :=
  { connected_ := false
    needDisconn_ := false
    channel_ := { reading := false, writing := false, removed := false }
    inputBuffer_ := { data := [] }
    outputBuffer_ := { data := [] } }

/-- Embeds `TcpConnection::sendInThread(data, len)`; `wr` is what `::write` returns
if the direct write is made.  For a result within the contract of `::write`
(at most `len`) the `size_t` subtraction `len - nwrote` does not wrap and
`data + nwrote` stays inside the payload; the kernel gives no other result. -/
def sendInThread (c : TcpConnection) (data : List Byte) (wr : Int) :
    TcpConnection × List Effect :=
  if !c.connected_ then
    (c, [Effect.log LogLine.disconnectedGiveUpWriting])
  else
    let len : Nat := data.length
    let direct : Bool := !c.channel_.isWriting && c.outputBuffer_.readableBytes == 0
    -- bool error = false; int nwrote = 0; size_t remaining = len;
    let nwrote : Int := if direct then wr else 0
    let error : Bool := direct && !(decide (nwrote ≥ 0))
    let remaining : Nat := if direct && decide (nwrote ≥ 0) then ((len : Int) - nwrote).toNat else len
    let effs₁ : List Effect :=
      if direct then
        Effect.write data wr ::
          (if nwrote ≥ 0 then [] else [Effect.log LogLine.sendInLoopWriteError])
      else []
    if !error && decide (remaining > 0) then
      let out := c.outputBuffer_.append ((data.drop nwrote.toNat).take remaining)
      let ch := if !c.channel_.isWriting then c.channel_.enableWriting else c.channel_
      ({ c with outputBuffer_ := out, channel_ := ch },
        effs₁ ++ [Effect.log LogLine.kernelSendBufferIsFull])
    else
      (c, effs₁)

/-- Embeds `TcpConnection::sendInLoop(message)`, the body of a queued send. -/
def sendInLoop (c : TcpConnection) (message : List Byte) (wr : Int) :
    TcpConnection × List Effect :=
  c.sendInThread message wr

/-- Embeds `TcpConnection::send(const void* data, size_t len)`; `inLoopThread` is
`loop_->isInLoopThread()`. -/
def send (c : TcpConnection) (inLoopThread : Bool) (data : List Byte) (wr : Int) :
    TcpConnection × List Effect :=
  if c.connected_ then
    if inLoopThread then c.sendInThread data wr
    else (c, [Effect.runInLoop (Task.sendInLoop data)])
  else (c, [])

/-- Embeds `TcpConnection::send(const StringPiece& message)`. -/
def sendStringPiece (c : TcpConnection) (inLoopThread : Bool) (message : List Byte) (wr : Int) :
    TcpConnection × List Effect :=
  if c.connected_ then
    if inLoopThread then c.sendInThread message wr
    else (c, [Effect.runInLoop (Task.sendInLoop message)])
  else (c, [])

/-- Embeds `TcpConnection::send(Buffer* buffer)`; the second component is the
caller's buffer after the call. -/
def sendBuffer (c : TcpConnection) (inLoopThread : Bool) (buffer : Buffer) (wr : Int) :
    TcpConnection × Buffer × List Effect :=
  if c.connected_ then
    if inLoopThread then
      let r := c.sendInThread buffer.peek wr
      (r.1, buffer, r.2)
    else
      let m := buffer.retrieveAllAsString
      (c, m.2, [Effect.runInLoop (Task.sendInLoop m.1)])
  else (c, buffer, [])

/-- Embeds `TcpConnection::shutdown()`. -/
def shutdown (c : TcpConnection) : TcpConnection × List Effect :=
  if !c.needDisconn_ then
    ({ c with needDisconn_ := true }, [Effect.runInLoop Task.shutdownInLoop])
  else (c, [])

/-- Embeds `TcpConnection::shutdownInLoop()`. -/
def shutdownInLoop (c : TcpConnection) : TcpConnection × List Effect :=
  if !c.channel_.isWriting then
    ({ c with connected_ := false }, [Effect.shutdownWrite])
  else (c, [])

/-- Embeds `TcpConnection::connectionEstablished()`. -/
def connectionEstablished (c : TcpConnection) : TcpConnection × List Effect :=
  ({ c with connected_ := true, channel_ := c.channel_.enableReading },
    [Effect.connectionCallback])

/-- Embeds `TcpConnection::connectionDestroyed()`. -/
def connectionDestroyed (c : TcpConnection) : TcpConnection × List Effect :=
  ({ c with channel_ := c.channel_.disableReading.remove }, [Effect.connectionCallback])

/-- Embeds `TcpConnection::handleClose()`. -/
def handleClose (c : TcpConnection) : TcpConnection × List Effect :=
  ({ c with connected_ := false, channel_ := c.channel_.disableAll },
    [Effect.removeConnection])

/-- Embeds `TcpConnection::handleError()`. -/
def handleError (c : TcpConnection) : TcpConnection × List Effect :=
  (c, [Effect.getsockoptSoError, Effect.log LogLine.soError])

/-- Embeds `TcpConnection::handleRead()`; `n` and `incoming` are the outcome of
`inputBuffer_.readFd`, and `consumed` is the number of bytes the message
callback retrieves from the input buffer.  Calls the callback makes on the
connection (`send`, `shutdown`) are the operations that follow this one. -/
def handleRead (c : TcpConnection) (n : Int) (incoming : List Byte) (consumed : Nat) :
    TcpConnection × List Effect :=
  let c₁ := { c with inputBuffer_ := c.inputBuffer_.readFd n incoming }
  if n > 0 then
    ({ c₁ with inputBuffer_ := c₁.inputBuffer_.retrieve consumed }, [Effect.messageCallback])
  else if n = 0 then
    c₁.handleClose
  else
    let r := c₁.handleError
    (r.1, Effect.log LogLine.handleReadReadvError :: r.2)

/-- Embeds `TcpConnection::handleWrite()`; `wr` is what `::write` returns. -/
def handleWrite (c : TcpConnection) (wr : Int) : TcpConnection × List Effect :=
  if c.channel_.isWriting then
    let w := Effect.write c.outputBuffer_.peek wr
    if wr > 0 then
      let c₁ := { c with outputBuffer_ := c.outputBuffer_.retrieve wr.toNat }
      if c₁.outputBuffer_.readableBytes == 0 then
        let c₂ := { c₁ with channel_ := c₁.channel_.disableWriting }
        if c₂.needDisconn_ then
          let r := c₂.shutdownInLoop
          (r.1, w :: r.2)
        else (c₂, [w])
      else (c₁, [w, Effect.log LogLine.sendBufferIsEmpty])
    else (c, [w, Effect.log LogLine.handleWriteWriteError])
  else (c, [])

end TcpConnection

/-! ## The loop: operations in sequence -/

/-- Modelled from the spec: the Event Loop (EventLoop.h is not in the source
tree), whose `runInLoop` "executes the task later on the owner thread, FIFO".
The world is the connection together with the functors queued on its loop and
the effects performed so far, oldest first. -/
structure World where
  conn : TcpConnection
  pending : List Task
  trace : List Effect
  deriving DecidableEq, Repr

/-- One operation on the connection.  The results of the system calls the
operation makes are part of the event. -/
inductive Event where
  | connectionEstablished
  | connectionDestroyed
  | send (inLoopThread : Bool) (data : List Byte) (wr : Int)
  | sendStringPiece (inLoopThread : Bool) (message : List Byte) (wr : Int)
  | sendBuffer (inLoopThread : Bool) (buffer : Buffer) (wr : Int)
  | shutdown
  /-- The loop runs the oldest queued functor. -/
  | runPending (wr : Int)
  | handleRead (n : Int) (incoming : List Byte) (consumed : Nat)
  | handleWrite (wr : Int)
  | handleClose
  | handleError
  deriving DecidableEq, Repr

/-- The functors an operation queued on `loop_`. -/
def posted : List Effect → List Task
  | [] => []
  | Effect.runInLoop t :: es => t :: posted es
  | _ :: es => posted es

/-- Runs a queued functor. -/
def Task.run (c : TcpConnection) (wr : Int) : Task → TcpConnection × List Effect
  | Task.sendInLoop message => c.sendInLoop message wr
  | Task.shutdownInLoop => c.shutdownInLoop

/-- What the event does to the connection.  `runPending` is carried out by
`step`, which holds the queue. -/
def Event.apply (c : TcpConnection) : Event → TcpConnection × List Effect
  | Event.connectionEstablished => c.connectionEstablished
  | Event.connectionDestroyed => c.connectionDestroyed
  | Event.send t data wr => c.send t data wr
  | Event.sendStringPiece t message wr => c.sendStringPiece t message wr
  | Event.sendBuffer t buffer wr => ((c.sendBuffer t buffer wr).1, (c.sendBuffer t buffer wr).2.2)
  | Event.shutdown => c.shutdown
  | Event.runPending _ => (c, [])
  | Event.handleRead n incoming consumed => c.handleRead n incoming consumed
  | Event.handleWrite wr => c.handleWrite wr
  | Event.handleClose => c.handleClose
  | Event.handleError => c.handleError

/-- One step of the loop: the operation runs to completion on the owning
thread, its effects are appended to the trace and the functors it handed to
`runInLoop` join the queue. -/
def step (w : World) (e : Event) : World :=
  match e, w.pending with
  | Event.runPending _, [] => w
  | Event.runPending wr, t :: rest =>
      let r := t.run w.conn wr
      { conn := r.1, pending := rest ++ posted r.2, trace := w.trace ++ r.2 }
  | e, _ =>
      let r := e.apply w.conn
      { conn := r.1, pending := w.pending ++ posted r.2, trace := w.trace ++ r.2 }

/-- Runs a sequence of events. -/
def run (w : World) (es : List Event) : World := es.foldl step w

/-- A newly constructed connection, nothing queued, nothing done. -/
def World.init : World := { conn := TcpConnection.new, pending := [], trace := [] }

/-- The number of half-closes in a trace. -/
def halfCloses (t : List Effect) : Nat := t.count Effect.shutdownWrite

/-- The bytes the kernel accepted in a trace, in order. -/
def accepted : List Effect → List Byte
  | [] => []
  | Effect.write offered result :: es => offered.take result.toNat ++ accepted es
  | _ :: es => accepted es

/-- The attempted writes of a trace. -/
def writes : List Effect → List (List Byte × Int)
  | [] => []
  | Effect.write offered result :: es => (offered, result) :: writes es
  | _ :: es => writes es

/-- The payload bytes handed to the send overloads by a sequence of events,
in call order. -/
def payloads : List Event → List Byte
  | [] => []
  | Event.send _ data _ :: es => data ++ payloads es
  | Event.sendStringPiece _ message _ :: es => message ++ payloads es
  | Event.sendBuffer _ buffer _ :: es => buffer.peek ++ payloads es
  | _ :: es => payloads es

/-- A send made on the owning thread, or a write-ready event. -/
def Event.isLoopSendOrWrite : Event → Bool
  | Event.send t _ _ => t
  | Event.sendStringPiece t _ _ => t
  | Event.sendBuffer t _ _ => t
  | Event.handleWrite _ => true
  | _ => false

/-- The kernel's contract for `::write`: a count between 0 and the number of
bytes offered. -/
def WriteInBounds (p : List Byte × Int) : Prop := 0 ≤ p.2 ∧ p.2 ≤ (p.1.length : Int)

instance (p : List Byte × Int) : Decidable (WriteInBounds p) := by
  unfold WriteInBounds; infer_instance

/-- A connection right after `connectionEstablished`. -/
def World.established : World := step World.init Event.connectionEstablished

/-- A closed connection that still has two bytes in its output buffer. -/
def closedWithQueue : TcpConnection :=
  { connected_ := false, needDisconn_ := true,
    channel_ := { reading := false, writing := false, removed := false },
    inputBuffer_ := { data := [] }, outputBuffer_ := { data := [7, 8] } }

/-- Owning-thread sends of "A", "B" and "C" (65, 66, 67): the first is taken
by a direct write that accepts nothing, a write-ready event then drains one
byte, and the rest stays queued. -/
def abcRun : List Event :=
  [Event.send true [65] 0, Event.sendStringPiece true [66] 0, Event.handleWrite 1,
    Event.sendBuffer true { data := [67] } 0]

/-- The output buffer is non-empty exactly when the channel is interested in
writable events. -/
def Coupled (c : TcpConnection) : Prop :=
  c.channel_.isWriting = true ↔ c.outputBuffer_.readableBytes ≠ 0

instance (c : TcpConnection) : Decidable (Coupled c) := by
  unfold Coupled; infer_instance

/-- One half of the coupling: queued bytes imply writable-interest. -/
def QueuedImpliesWriting (c : TcpConnection) : Prop :=
  c.outputBuffer_.data ≠ [] → c.channel_.writing = true

/-- The abrupt close: `handleClose`, also entered by `handleRead` on a
zero-byte read. -/
def Event.isAbruptClose : Event → Bool
  | Event.handleClose => true
  | Event.handleRead n _ _ => decide (n = 0)
  | _ => false

/-- Two bytes are queued, the connection is closed abruptly, and `shutdown()`
is called afterwards; its functor is still queued on the loop. -/
def closeThenShutdown : List Event :=
  [Event.connectionEstablished, Event.send true [1, 2] 0, Event.handleClose, Event.shutdown]

/-- What every operation guarantees about the connection `c` before it, the
connection `c'` after it and the effects `effs` it performed; `e` is the
event that started the operation. -/
def Framed (e : Event) (c c' : TcpConnection) (effs : List Effect) : Prop :=
  (c.needDisconn_ = true → c'.needDisconn_ = true) ∧
  (e ≠ Event.connectionEstablished → c.connected_ = false → c'.connected_ = false) ∧
  (e.isAbruptClose = false → QueuedImpliesWriting c → QueuedImpliesWriting c') ∧
  (Effect.shutdownWrite ∈ effs →
    c'.channel_.writing = false ∧ (QueuedImpliesWriting c → c'.outputBuffer_.data = [])) ∧
  (e ≠ Event.connectionEstablished → c.connected_ = false → c.channel_.writing = false →
    c'.channel_.writing = false ∧ c'.outputBuffer_ = c.outputBuffer_ ∧ writes effs = []) ∧
  (e.isAbruptClose = false → Coupled c → Coupled c')

/-- Two bytes are queued, `shutdown()` is called and its functor runs while
the bytes are still queued; the next write-ready event is the one that
empties the buffer. -/
def shutdownWhileQueued : List Event :=
  [Event.connectionEstablished, Event.send true [1, 2] 0, Event.shutdown, Event.runPending 0]

/-- Two bytes are queued and `shutdown()` is called; the write-ready event
that takes both bytes is handled before the loop runs the functor that
`shutdown()` queued. -/
def shutdownRace : List Event :=
  [Event.connectionEstablished, Event.send true [1, 2] 0, Event.shutdown,
    Event.handleWrite 2, Event.runPending 0]

/-- Three owning-thread sends and two write-ready events; the second one
empties the output buffer. -/
def sendDrainRun : List Event :=
  [Event.send true [1, 2, 3] 1, Event.send true [4] 0, Event.handleWrite 1,
    Event.send true [5, 6] 0, Event.handleWrite 4]

/-- An established connection with one byte queued and writable-interest on. -/
def drainingConn : TcpConnection :=
  { connected_ := true, needDisconn_ := false,
    channel_ := { reading := true, writing := true, removed := false },
    inputBuffer_ := { data := [] }, outputBuffer_ := { data := [1] } }

/-- An established connection with 50 bytes queued for output. -/
def queued50 : World :=
  { conn :=
      { connected_ := true, needDisconn_ := false,
        channel_ := { reading := true, writing := true, removed := false },
        inputBuffer_ := { data := [] }, outputBuffer_ := { data := List.replicate 50 0 } }
    pending := []
    trace := [] }

/-- Operations attempted after an abrupt close. -/
def afterClose : List Event :=
  [Event.handleWrite 50, Event.send true [9] 1, Event.send false [9] 1, Event.shutdown,
    Event.runPending 0, Event.runPending 0, Event.handleWrite 50, Event.connectionDestroyed]

/-- The value of `connected_` before the first event and after each event. -/
def history (w : World) : List Event → List Bool
  | [] => [w.conn.connected_]
  | e :: es => w.conn.connected_ :: history (step w e) es

/-- The number of changes from false to true in a list of values. -/
def rises : List Bool → Nat
  | a :: b :: bs => (if a = false ∧ b = true then 1 else 0) + rises (b :: bs)
  | _ => 0

/-- The number of changes from true to false in a list of values. -/
def falls : List Bool → Nat
  | a :: b :: bs => (if a = true ∧ b = false then 1 else 0) + falls (b :: bs)
  | _ => 0

/-- A life of a connection after it is established: two bytes queued,
shutdown requested, the buffer drained (which makes the half-close), then the
peer closes and the connection is destroyed. -/
def fullLife : List Event :=
  [Event.send true [1, 2] 0, Event.shutdown, Event.runPending 0, Event.handleWrite 2,
    Event.send true [3] 1, Event.handleRead 0 [] 0, Event.connectionDestroyed]

/-- The payload "ping" (112, 105, 110, 103). -/
def ping : List Byte := [112, 105, 110, 103]

/-- What every operation guarantees about the lifecycle callback and the
removal task: only `connectionEstablished` and `connectionDestroyed` invoke
the connection callback, and an operation that posts the removal task leaves
the connection closed with writable-interest off. -/
def LifecycleFramed (e : Event) (c' : TcpConnection) (effs : List Effect) : Prop :=
  (e ≠ Event.connectionEstablished → e ≠ Event.connectionDestroyed →
    Effect.connectionCallback ∉ effs) ∧
  (Effect.removeConnection ∈ effs → c'.connected_ = false ∧ c'.channel_.writing = false)

/-- The operations of a connection between its establishment and its
destruction: two bytes queued, shutdown requested and deferred, the buffer
drained (half-close), a late send, then the peer closes. -/
def lifeBeforeDestroy : List Event :=
  [Event.send true [1, 2] 0, Event.shutdown, Event.runPending 0, Event.handleWrite 2,
    Event.send true [3] 1, Event.handleRead 0 [] 0]

/-- A connection in the Closing state: shutdown requested, three bytes still
queued, writable-interest on. -/
def closingConn : TcpConnection :=
  { connected_ := true, needDisconn_ := true,
    channel_ := { reading := true, writing := true, removed := false },
    inputBuffer_ := { data := [] }, outputBuffer_ := { data := [1, 2, 3] } }

instance (c : TcpConnection) : Decidable (QueuedImpliesWriting c) := by
  unfold QueuedImpliesWriting; infer_instance

/-- A connection with five bytes left to drain after a direct write took the
first three of an eight-byte payload. -/
def drainingFive : World :=
  step World.established (Event.send true [1, 2, 3, 4, 5, 6, 7, 8] 3)

/-- After an abrupt close the connection is established a second time, one
byte is sent on the owning thread and a write-ready event follows. -/
def reestablishAndSend : List Event :=
  [Event.connectionEstablished, Event.send true [9] 0, Event.handleWrite 51]

/-- A connection is established, closed abruptly and established again. -/
def closeAndReestablish : List Event :=
  [Event.connectionEstablished, Event.handleClose, Event.connectionEstablished]

/-! ## Basic facts about traces -/

theorem posted_append (a b : List Effect) : posted (a ++ b) = posted a ++ posted b := by
  induction a with
  | nil => rfl
  | cons x xs ih => cases x <;> simp [posted, ih]

theorem accepted_append (a b : List Effect) : accepted (a ++ b) = accepted a ++ accepted b := by
  induction a with
  | nil => rfl
  | cons x xs ih => cases x <;> simp [accepted, ih]

theorem writes_append (a b : List Effect) : writes (a ++ b) = writes a ++ writes b := by
  induction a with
  | nil => rfl
  | cons x xs ih => cases x <;> simp [writes, ih]

theorem payloads_append (a b : List Event) : payloads (a ++ b) = payloads a ++ payloads b := by
  induction a with
  | nil => rfl
  | cons x xs ih => cases x <;> simp [payloads, ih]

theorem run_append (w : World) (a b : List Event) : run w (a ++ b) = run (run w a) b := by
  simp [run, List.foldl_append]

theorem run_snoc (w : World) (a : List Event) (e : Event) :
    run w (a ++ [e]) = step (run w a) e := by
  simp [run, List.foldl_append]

/-! ## Sends on a disconnected connection -/

/-- C1: on a connection whose `connected_` is false, each of the three send
overloads (on the owning thread or off it) returns the connection unchanged
with no effect at all, and `sendInThread` returns it unchanged after writing
one log line: no write is attempted, the output buffer and the
writable-interest are as before, nothing is queued on the loop. -/
theorem send_disconnected_is_noop (c : TcpConnection) (hc : c.connected_ = false)
    (t : Bool) (data : List Byte) (buffer : Buffer) (wr : Int) :
    c.send t data wr = (c, []) ∧
    c.sendStringPiece t data wr = (c, []) ∧
    c.sendBuffer t buffer wr = (c, buffer, []) ∧
    c.sendInThread data wr = (c, [Effect.log LogLine.disconnectedGiveUpWriting]) ∧
    c.sendInLoop data wr = (c, [Effect.log LogLine.disconnectedGiveUpWriting]) ∧
    writes (c.sendInThread data wr).2 = [] ∧
    posted (c.sendInThread data wr).2 = [] ∧
    (c.sendInThread data wr).1.outputBuffer_ = c.outputBuffer_ ∧
    (c.sendInThread data wr).1.channel_.isWriting = c.channel_.isWriting := by
  simp [TcpConnection.send, TcpConnection.sendStringPiece, TcpConnection.sendBuffer,
    TcpConnection.sendInThread, TcpConnection.sendInLoop, hc, writes, posted]

/-- C1 at a closed connection that still has two bytes queued. -/
theorem send_disconnected_is_noop_witness :
    closedWithQueue.connected_ = false ∧
      closedWithQueue.send true [1, 2, 3] 3 = (closedWithQueue, []) ∧
      closedWithQueue.sendInThread [1, 2, 3] 3 =
        (closedWithQueue, [Effect.log LogLine.disconnectedGiveUpWriting]) :=
  ⟨rfl, (send_disconnected_is_noop closedWithQueue rfl true [1, 2, 3] { data := [] } 3).1,
    (send_disconnected_is_noop closedWithQueue rfl true [1, 2, 3] { data := [] } 3).2.2.2.1⟩

/-! ## The cases of `sendInThread` and `handleWrite` -/

/-- Whether `sendInThread` makes the direct write. -/
theorem direct_iff (c : TcpConnection) :
    (!c.channel_.isWriting && c.outputBuffer_.readableBytes == 0) = true ↔
      c.channel_.writing = false ∧ c.outputBuffer_.data = [] := by
  simp [Channel.isWriting, Buffer.readableBytes]

theorem sendInThread_direct_short (c : TcpConnection) (data : List Byte) (wr : Int)
    (hc : c.connected_ = true) (hw : c.channel_.writing = false)
    (hb : c.outputBuffer_.data = []) (h0 : 0 ≤ wr) (h1 : wr < data.length) :
    c.sendInThread data wr =
      ({ c with outputBuffer_ := { data := data.drop wr.toNat },
                channel_ := c.channel_.enableWriting },
        [Effect.write data wr, Effect.log LogLine.kernelSendBufferIsFull]) := by
  have hrem : ((data.length : Int) - wr).toNat = data.length - wr.toNat := by omega
  have hlen : data.length - wr.toNat ≥ (data.drop wr.toNat).length := by simp
  have hpos : 0 < data.length - wr.toNat := by omega
  simp [TcpConnection.sendInThread, hc, hw, hb, h0, Channel.isWriting, Buffer.readableBytes,
    Buffer.append, hrem, hpos, List.take_of_length_le hlen]

theorem sendInThread_direct_full (c : TcpConnection) (data : List Byte) (wr : Int)
    (hc : c.connected_ = true) (hw : c.channel_.writing = false)
    (hb : c.outputBuffer_.data = []) (h1 : (data.length : Int) ≤ wr) :
    c.sendInThread data wr = (c, [Effect.write data wr]) := by
  have h0 : 0 ≤ wr := by omega
  have hrem : ((data.length : Int) - wr).toNat = 0 := by omega
  simp [TcpConnection.sendInThread, hc, hw, hb, h0, Channel.isWriting, Buffer.readableBytes,
    hrem]

theorem sendInThread_direct_error (c : TcpConnection) (data : List Byte) (wr : Int)
    (hc : c.connected_ = true) (hw : c.channel_.writing = false)
    (hb : c.outputBuffer_.data = []) (h0 : wr < 0) :
    c.sendInThread data wr =
      (c, [Effect.write data wr, Effect.log LogLine.sendInLoopWriteError]) := by
  have h0' : ¬ (0 ≤ wr) := by omega
  simp [TcpConnection.sendInThread, hc, hw, hb, h0, h0', Channel.isWriting,
    Buffer.readableBytes]

theorem sendInThread_queued (c : TcpConnection) (data : List Byte) (wr : Int)
    (hc : c.connected_ = true)
    (hq : ¬ (c.channel_.writing = false ∧ c.outputBuffer_.data = [])) (hd : data ≠ []) :
    c.sendInThread data wr =
      ({ c with outputBuffer_ := { data := c.outputBuffer_.data ++ data },
                channel_ := { c.channel_ with writing := true } },
        [Effect.log LogLine.kernelSendBufferIsFull]) := by
  have hdir : (!c.channel_.isWriting && c.outputBuffer_.readableBytes == 0) = false := by
    rw [← Bool.not_eq_true, direct_iff]; exact hq
  have hpos : 0 < data.length := List.length_pos.mpr hd
  unfold TcpConnection.sendInThread
  simp only [hc, hdir]
  cases hww : c.channel_.writing <;>
    simp [hpos, Buffer.append, Channel.isWriting, Channel.enableWriting, hww]
  cases hch : c.channel_
  simp_all

theorem sendInThread_queued_empty (c : TcpConnection) (wr : Int)
    (hc : c.connected_ = true)
    (hq : ¬ (c.channel_.writing = false ∧ c.outputBuffer_.data = [])) :
    c.sendInThread [] wr = (c, []) := by
  have hdir : (!c.channel_.isWriting && c.outputBuffer_.readableBytes == 0) = false := by
    rw [← Bool.not_eq_true, direct_iff]; exact hq
  unfold TcpConnection.sendInThread
  simp [hc, hdir]


theorem handleWrite_idle (c : TcpConnection) (wr : Int) (hw : c.channel_.writing = false) :
    c.handleWrite wr = (c, []) := by
  simp [TcpConnection.handleWrite, Channel.isWriting, hw]

theorem handleWrite_nonpositive (c : TcpConnection) (wr : Int)
    (hw : c.channel_.writing = true) (h0 : wr ≤ 0) :
    c.handleWrite wr =
      (c, [Effect.write c.outputBuffer_.data wr, Effect.log LogLine.handleWriteWriteError]) := by
  have : ¬ (0 < wr) := by omega
  simp [TcpConnection.handleWrite, Channel.isWriting, hw, this, Buffer.peek]

theorem handleWrite_short (c : TcpConnection) (wr : Int)
    (hw : c.channel_.writing = true) (h0 : 0 < wr)
    (hr : c.outputBuffer_.data.drop wr.toNat ≠ []) :
    c.handleWrite wr =
      ({ c with outputBuffer_ := { data := c.outputBuffer_.data.drop wr.toNat } },
        [Effect.write c.outputBuffer_.data wr, Effect.log LogLine.sendBufferIsEmpty]) := by
  have hlen : ¬ (c.outputBuffer_.data.length ≤ wr.toNat) := by
    intro h; exact hr (List.drop_eq_nil_of_le h)
  have hsub : ¬ (c.outputBuffer_.data.length - wr.toNat = 0) := by omega
  simp [TcpConnection.handleWrite, Channel.isWriting, hw, h0, Buffer.peek, Buffer.retrieve,
    Buffer.readableBytes, hsub]

theorem handleWrite_drained (c : TcpConnection) (wr : Int)
    (hw : c.channel_.writing = true) (h0 : 0 < wr)
    (hr : c.outputBuffer_.data.drop wr.toNat = []) (hn : c.needDisconn_ = false) :
    c.handleWrite wr =
      ({ c with outputBuffer_ := { data := [] }, channel_ := c.channel_.disableWriting },
        [Effect.write c.outputBuffer_.data wr]) := by
  have hlen : c.outputBuffer_.data.length ≤ wr.toNat := List.drop_eq_nil_iff.mp hr
  simp [TcpConnection.handleWrite, Channel.isWriting, hw, h0, Buffer.peek, Buffer.retrieve,
    Buffer.readableBytes, hlen, hn, hr]

theorem handleWrite_drained_shutdown (c : TcpConnection) (wr : Int)
    (hw : c.channel_.writing = true) (h0 : 0 < wr)
    (hr : c.outputBuffer_.data.drop wr.toNat = []) (hn : c.needDisconn_ = true) :
    c.handleWrite wr =
      ({ c with outputBuffer_ := { data := [] }, channel_ := c.channel_.disableWriting,
                connected_ := false },
        [Effect.write c.outputBuffer_.data wr, Effect.shutdownWrite]) := by
  have hlen : c.outputBuffer_.data.length ≤ wr.toNat := List.drop_eq_nil_iff.mp hr
  simp [TcpConnection.handleWrite, Channel.isWriting, hw, h0, Buffer.peek, Buffer.retrieve,
    Buffer.readableBytes, hlen, hn, hr, TcpConnection.shutdownInLoop, Channel.disableWriting]


/-! ## Ordering -/

/-- What `sendInThread` does to the byte stream of a connected connection:
the bytes the kernel took at this call followed by the new output buffer are
the old output buffer followed by the payload. -/
theorem sendInThread_stream (c : TcpConnection) (data : List Byte) (wr : Int)
    (hc : c.connected_ = true)
    (hw : ∀ p ∈ writes (c.sendInThread data wr).2, WriteInBounds p) :
    (c.sendInThread data wr).1.connected_ = true ∧
    (c.sendInThread data wr).1.needDisconn_ = c.needDisconn_ ∧
    accepted (c.sendInThread data wr).2 ++ (c.sendInThread data wr).1.outputBuffer_.data
      = c.outputBuffer_.data ++ data := by
  by_cases hd : c.channel_.writing = false ∧ c.outputBuffer_.data = []
  · obtain ⟨hwr, hb⟩ := hd
    rcases lt_trichotomy wr 0 with h | h | h
    · rw [sendInThread_direct_error c data wr hc hwr hb h] at hw
      have := (hw (data, wr) (by simp [writes])).1
      simp at this; omega
    · subst h
      by_cases hl : (0 : Int) < data.length
      · rw [sendInThread_direct_short c data 0 hc hwr hb le_rfl hl]
        simp [accepted, hc, hb]
      · rw [sendInThread_direct_full c data 0 hc hwr hb (by omega)]
        have : data = [] := by
          cases data with
          | nil => rfl
          | cons x xs => simp at hl
        simp [accepted, hc, hb, this]
    · by_cases hl : wr < data.length
      · rw [sendInThread_direct_short c data wr hc hwr hb h.le hl]
        simp [accepted, hc, hb]
      · rw [sendInThread_direct_full c data wr hc hwr hb (by omega)]
        have : data.length ≤ wr.toNat := by omega
        simp [accepted, hc, hb, List.take_of_length_le this]
  · by_cases hz : data = []
    · subst hz
      rw [sendInThread_queued_empty c wr hc hd]
      simp [accepted, hc]
    · rw [sendInThread_queued c data wr hc hd hz]
      simp [accepted, hc]

/-- What `handleWrite` does to the byte stream while no shutdown is
requested. -/
theorem handleWrite_stream (c : TcpConnection) (wr : Int)
    (hn : c.needDisconn_ = false) :
    (c.handleWrite wr).1.connected_ = c.connected_ ∧
    (c.handleWrite wr).1.needDisconn_ = false ∧
    accepted (c.handleWrite wr).2 ++ (c.handleWrite wr).1.outputBuffer_.data
      = c.outputBuffer_.data := by
  cases hw : c.channel_.writing
  · rw [handleWrite_idle c wr hw]; simp [accepted, hn]
  · by_cases h0 : 0 < wr
    · by_cases hr : c.outputBuffer_.data.drop wr.toNat = []
      · rw [handleWrite_drained c wr hw h0 hr hn]
        simp [accepted, hn, List.take_of_length_le (List.drop_eq_nil_iff.mp hr)]
      · rw [handleWrite_short c wr hw h0 hr]
        simp [accepted, hn]
    · rw [handleWrite_nonpositive c wr hw (by omega)]
      have : wr.toNat = 0 := by omega
      simp [accepted, hn, this]

/-- One owning-thread send or write-ready event keeps the stream intact. -/
theorem apply_stream (c : TcpConnection) (e : Event) (he : e.isLoopSendOrWrite = true)
    (hc : c.connected_ = true) (hn : c.needDisconn_ = false)
    (hw : ∀ p ∈ writes (e.apply c).2, WriteInBounds p) :
    (e.apply c).1.connected_ = true ∧ (e.apply c).1.needDisconn_ = false ∧
      accepted (e.apply c).2 ++ (e.apply c).1.outputBuffer_.data
        = c.outputBuffer_.data ++ payloads [e] := by
  cases e with
  | send t data wr =>
      simp only [Event.isLoopSendOrWrite] at he
      subst he
      have h := sendInThread_stream c data wr hc
        (by simpa [Event.apply, TcpConnection.send, hc] using hw)
      simpa [Event.apply, TcpConnection.send, hc, payloads, hn] using h
  | sendStringPiece t data wr =>
      simp only [Event.isLoopSendOrWrite] at he
      subst he
      have h := sendInThread_stream c data wr hc
        (by simpa [Event.apply, TcpConnection.sendStringPiece, hc] using hw)
      simpa [Event.apply, TcpConnection.sendStringPiece, hc, payloads, hn] using h
  | sendBuffer t buffer wr =>
      simp only [Event.isLoopSendOrWrite] at he
      subst he
      have h := sendInThread_stream c buffer.peek wr hc
        (by simpa [Event.apply, TcpConnection.sendBuffer, hc] using hw)
      simpa [Event.apply, TcpConnection.sendBuffer, hc, payloads, hn] using h
  | handleWrite wr =>
      have h := handleWrite_stream c wr hn
      simpa [Event.apply, payloads, hc] using h
  | _ => simp [Event.isLoopSendOrWrite] at he

/-- The step of the loop for an event that is not `runPending`. -/
theorem step_of_apply (w : World) (e : Event) (he : ∀ wr, e ≠ Event.runPending wr) :
    step w e =
      { conn := (e.apply w.conn).1, pending := w.pending ++ posted (e.apply w.conn).2,
        trace := w.trace ++ (e.apply w.conn).2 } := by
  cases e <;> first | rfl | exact absurd rfl (he _)

/-- The stream invariant along a run of owning-thread sends and write-ready
events. -/
theorem run_stream (w : World) (es : List Event)
    (hes : ∀ e ∈ es, e.isLoopSendOrWrite = true)
    (hc : w.conn.connected_ = true) (hn : w.conn.needDisconn_ = false)
    (hw : ∀ p ∈ writes (run w es).trace, WriteInBounds p) :
    (run w es).conn.connected_ = true ∧ (run w es).conn.needDisconn_ = false ∧
      accepted (run w es).trace ++ (run w es).conn.outputBuffer_.data
        = accepted w.trace ++ w.conn.outputBuffer_.data ++ payloads es := by
  induction es using List.reverseRecOn with
  | nil => simp [run, payloads, hc, hn]
  | append_singleton es e ih =>
      have he : e.isLoopSendOrWrite = true := hes e (by simp)
      have hne : ∀ wr, e ≠ Event.runPending wr := by
        intro wr h; subst h; simp [Event.isLoopSendOrWrite] at he
      rw [run_snoc, step_of_apply _ _ hne] at hw ⊢
      simp only [writes_append, List.mem_append] at hw
      obtain ⟨ihc, ihn, ihs⟩ := ih (fun e h => hes e (by simp [h])) (fun p hp => hw p (Or.inl hp))
      obtain ⟨sc, sn, ss⟩ := apply_stream _ e he ihc ihn (fun p hp => hw p (Or.inr hp))
      refine ⟨sc, sn, ?_⟩
      simp only [accepted_append, payloads_append, List.append_assoc] at ss ihs ⊢
      rw [ss, ← List.append_assoc (accepted (run w es).trace), ← List.append_assoc, ihs]
      simp [List.append_assoc]

/-- C2: from a freshly established connection, after any sequence of
owning-thread sends and write-ready events in which every write returns a
count between 0 and the number of bytes offered, the bytes the kernel has
accepted followed by the output buffer are the payloads in call order. -/
theorem ordering_without_loss (es : List Event)
    (hes : ∀ e ∈ es, e.isLoopSendOrWrite = true)
    (hw : ∀ p ∈ writes (run World.established es).trace, WriteInBounds p) :
    accepted (run World.established es).trace
        ++ (run World.established es).conn.outputBuffer_.data
      = payloads es := by
  have h := (run_stream World.established es hes rfl rfl hw).2.2
  simpa [World.established, step, World.init, Event.apply,
    TcpConnection.connectionEstablished, TcpConnection.new, accepted] using h


/-- C2 on sends of "A", "B", "C": the kernel has "A", the buffer "BC". -/
theorem ordering_without_loss_witness :
    (∀ e ∈ abcRun, e.isLoopSendOrWrite = true) ∧
    (∀ p ∈ writes (run World.established abcRun).trace, WriteInBounds p) ∧
    accepted (run World.established abcRun).trace = [65] ∧
    (run World.established abcRun).conn.outputBuffer_.data = [66, 67] ∧
    accepted (run World.established abcRun).trace
        ++ (run World.established abcRun).conn.outputBuffer_.data = [65, 66, 67] :=
  ⟨by decide, by decide, by decide, by decide,
    ordering_without_loss abcRun (by decide) (by decide)⟩


/-! ## What each operation can change -/

/-- The connection after `sendInThread` is the one before, or the one before
with a non-empty suffix of the payload appended to the output buffer and
writable-interest on. -/
theorem sendInThread_cases (c : TcpConnection) (data : List Byte) (wr : Int) :
    (c.sendInThread data wr).1 = c ∨
    (c.connected_ = true ∧ ∃ suffix, suffix ≠ [] ∧ suffix <:+ data ∧
      (c.sendInThread data wr).1 =
        { c with outputBuffer_ := { data := c.outputBuffer_.data ++ suffix },
                 channel_ := { c.channel_ with writing := true } }) := by
  rcases Bool.eq_false_or_eq_true c.connected_ with hc | hc
  · by_cases hd : c.channel_.writing = false ∧ c.outputBuffer_.data = []
    · obtain ⟨hwr, hb⟩ := hd
      by_cases h0 : wr < 0
      · left; rw [sendInThread_direct_error c data wr hc hwr hb h0]
      · by_cases hl : wr < data.length
        · right
          refine ⟨hc, data.drop wr.toNat, ?_, List.drop_suffix _ _, ?_⟩
          · intro h; have := List.drop_eq_nil_iff.mp h; omega
          · rw [sendInThread_direct_short c data wr hc hwr hb (by omega) hl]
            simp [hb, Channel.enableWriting]
        · left; rw [sendInThread_direct_full c data wr hc hwr hb (by omega)]
    · by_cases hz : data = []
      · left; subst hz; rw [sendInThread_queued_empty c wr hc hd]
      · right
        refine ⟨hc, data, hz, List.suffix_refl _, ?_⟩
        rw [sendInThread_queued c data wr hc hd hz]
  · left; simp [TcpConnection.sendInThread, hc]

/-- The effects of `sendInThread` are writes and log lines only. -/
theorem sendInThread_effects (c : TcpConnection) (data : List Byte) (wr : Int) :
    ∀ x ∈ (c.sendInThread data wr).2,
      x = Effect.write data wr ∨ ∃ l, x = Effect.log l := by
  intro x hx
  rcases Bool.eq_false_or_eq_true c.connected_ with hc | hc
  · by_cases hd : c.channel_.writing = false ∧ c.outputBuffer_.data = []
    · obtain ⟨hwr, hb⟩ := hd
      by_cases h0 : wr < 0
      · rw [sendInThread_direct_error c data wr hc hwr hb h0] at hx
        simp at hx; rcases hx with h | h <;> simp [h]
      · by_cases hl : wr < data.length
        · rw [sendInThread_direct_short c data wr hc hwr hb (by omega) hl] at hx
          simp at hx; rcases hx with h | h <;> simp [h]
        · rw [sendInThread_direct_full c data wr hc hwr hb (by omega)] at hx
          simp at hx; simp [hx]
    · by_cases hz : data = []
      · subst hz; rw [sendInThread_queued_empty c wr hc hd] at hx; simp at hx
      · rw [sendInThread_queued c data wr hc hd hz] at hx
        simp at hx; simp [hx]
  · simp [TcpConnection.sendInThread, hc] at hx; simp [hx]

/-- The connection after `handleWrite`: unchanged, or a prefix of the output
buffer was dropped; when nothing is left, writable-interest is turned off and
a requested shutdown makes the half-close. -/
theorem handleWrite_cases (c : TcpConnection) (wr : Int) :
    ((c.handleWrite wr).1 = c ∧ Effect.shutdownWrite ∉ (c.handleWrite wr).2) ∨
    (c.channel_.writing = true ∧ c.outputBuffer_.data.drop wr.toNat ≠ [] ∧
      (c.handleWrite wr).1 =
        { c with outputBuffer_ := { data := c.outputBuffer_.data.drop wr.toNat } } ∧
      Effect.shutdownWrite ∉ (c.handleWrite wr).2) ∨
    (c.channel_.writing = true ∧ c.needDisconn_ = false ∧
      (c.handleWrite wr).1 =
        { c with outputBuffer_ := { data := [] }, channel_ := c.channel_.disableWriting } ∧
      Effect.shutdownWrite ∉ (c.handleWrite wr).2) ∨
    (c.channel_.writing = true ∧ c.needDisconn_ = true ∧
      (c.handleWrite wr).1 =
        { c with outputBuffer_ := { data := [] }, channel_ := c.channel_.disableWriting,
                 connected_ := false } ∧
      (c.handleWrite wr).2 = [Effect.write c.outputBuffer_.data wr, Effect.shutdownWrite]) := by
  cases hw : c.channel_.writing
  · left; rw [handleWrite_idle c wr hw]; simp
  · by_cases h0 : 0 < wr
    · by_cases hr : c.outputBuffer_.data.drop wr.toNat = []
      · cases hn : c.needDisconn_
        · right; right; left
          rw [handleWrite_drained c wr hw h0 hr hn]; simp [hn]
        · right; right; right
          rw [handleWrite_drained_shutdown c wr hw h0 hr hn]; simp [hn]
      · right; left
        rw [handleWrite_short c wr hw h0 hr]; simp [hr]
    · left; rw [handleWrite_nonpositive c wr hw (by omega)]; simp


theorem sendInThread_framed (e : Event) (c : TcpConnection) (data : List Byte) (wr : Int) :
    Framed e c (c.sendInThread data wr).1 (c.sendInThread data wr).2 := by
  have heff := sendInThread_effects c data wr
  have hns : Effect.shutdownWrite ∉ (c.sendInThread data wr).2 := by
    intro h; rcases heff _ h with h | ⟨l, h⟩ <;> cases h
  rcases sendInThread_cases c data wr with h | ⟨hc, s, hs, _, h⟩
  · refine ⟨by simp [h], by simp [h], by simp [h], fun hx => absurd hx hns, ?_, by simp [h]⟩
    intro _ hc hw
    refine ⟨by simp [h, hw], by simp [h], ?_⟩
    simp [TcpConnection.sendInThread, hc, writes]
  · refine ⟨by simp [h], by simp [h, hc], ?_, fun hx => absurd hx hns, by simp [hc], ?_⟩
    · intro _ _
      simp [QueuedImpliesWriting, h]
    · intro _ _
      simp [Coupled, h, Channel.isWriting, Buffer.readableBytes, hs]

theorem shutdownInLoop_framed (e : Event) (c : TcpConnection) :
    Framed e c c.shutdownInLoop.1 c.shutdownInLoop.2 := by
  unfold TcpConnection.shutdownInLoop Framed QueuedImpliesWriting Coupled
  cases hw : c.channel_.writing <;>
    simp [Channel.isWriting, hw, writes, Buffer.readableBytes]

theorem handleWrite_framed (e : Event) (c : TcpConnection) (wr : Int) :
    Framed e c (c.handleWrite wr).1 (c.handleWrite wr).2 := by
  rcases handleWrite_cases c wr with ⟨h, hs⟩ | ⟨hw, hr, h, hs⟩ | ⟨hw, hn, h, hs⟩ | ⟨hw, hn, h, hs⟩
  · refine ⟨by simp [h], by simp [h], by simp [h], fun hx => absurd hx hs, ?_, by simp [h]⟩
    intro _ _ hw
    refine ⟨by simp [h, hw], by simp [h], ?_⟩
    rw [handleWrite_idle c wr hw]; rfl
  · refine ⟨by simp [h], by simp [h], ?_, fun hx => absurd hx hs, ?_, ?_⟩
    · intro _ _; simp [QueuedImpliesWriting, h, hw]
    · intro _ _ hw'; simp [hw] at hw'
    · intro _ _
      have hlen : ¬ (c.outputBuffer_.data.length ≤ wr.toNat) := fun hle =>
        hr (List.drop_eq_nil_of_le hle)
      simp [Coupled, h, Channel.isWriting, Buffer.readableBytes, hw]
      omega
  · refine ⟨by simp [h], by simp [h], ?_, fun hx => absurd hx hs, ?_, ?_⟩
    · intro _ _; simp [QueuedImpliesWriting, h]
    · intro _ _ hw'; simp [hw] at hw'
    · intro _ _
      simp [Coupled, h, Channel.isWriting, Buffer.readableBytes, Channel.disableWriting]
  · refine ⟨by simp [h], by simp [h], ?_, ?_, ?_, ?_⟩
    · intro _ _; simp [QueuedImpliesWriting, h]
    · intro _; simp [h, Channel.disableWriting]
    · intro _ _ hw'; simp [hw] at hw'
    · intro _ _
      simp [Coupled, h, Channel.isWriting, Buffer.readableBytes, Channel.disableWriting]

/-- Every operation started by an event satisfies the frame conditions. -/
theorem apply_framed (e : Event) (c : TcpConnection) :
    Framed e c (e.apply c).1 (e.apply c).2 := by
  cases e with
  | connectionEstablished =>
      simp [Framed, Event.apply, TcpConnection.connectionEstablished, QueuedImpliesWriting,
        Channel.enableReading, Event.isAbruptClose, Coupled, Channel.isWriting]
  | connectionDestroyed =>
      simp [Framed, Event.apply, TcpConnection.connectionDestroyed, QueuedImpliesWriting,
        Channel.disableReading, Channel.remove, Event.isAbruptClose, writes, Coupled,
        Channel.isWriting]
  | send t data wr =>
      have h := sendInThread_framed (Event.send t data wr) c data wr
      cases hc : c.connected_ <;> cases t <;>
        simp_all [Framed, Event.apply, TcpConnection.send, writes]
  | sendStringPiece t data wr =>
      have h := sendInThread_framed (Event.sendStringPiece t data wr) c data wr
      cases hc : c.connected_ <;> cases t <;>
        simp_all [Framed, Event.apply, TcpConnection.sendStringPiece, writes]
  | sendBuffer t buffer wr =>
      have h := sendInThread_framed (Event.sendBuffer t buffer wr) c buffer.peek wr
      cases hc : c.connected_ <;> cases t <;>
        simp_all [Framed, Event.apply, TcpConnection.sendBuffer, writes]
  | shutdown =>
      cases hn : c.needDisconn_ <;>
        simp [Framed, Event.apply, TcpConnection.shutdown, hn, QueuedImpliesWriting, writes,
          Coupled]
  | runPending wr => simp [Framed, Event.apply, writes]
  | handleRead n incoming consumed =>
      rcases lt_trichotomy n 0 with h | h | h
      · have h1 : ¬ (n > 0) := by omega
        have h2 : ¬ (n = 0) := by omega
        simp [Framed, Event.apply, TcpConnection.handleRead, h1, h2, TcpConnection.handleError,
          Buffer.readFd, QueuedImpliesWriting, writes, Coupled]
      · subst h
        simp [Framed, Event.apply, TcpConnection.handleRead, TcpConnection.handleClose,
          Buffer.readFd, QueuedImpliesWriting, writes, Event.isAbruptClose, Channel.disableAll]
      · simp [Framed, Event.apply, TcpConnection.handleRead, h, Buffer.readFd,
          QueuedImpliesWriting, writes, Coupled]
  | handleWrite wr => exact handleWrite_framed _ c wr
  | handleClose =>
      simp [Framed, Event.apply, TcpConnection.handleClose, QueuedImpliesWriting, writes,
        Event.isAbruptClose, Channel.disableAll]
  | handleError =>
      simp [Framed, Event.apply, TcpConnection.handleError, QueuedImpliesWriting, writes, Coupled]

/-- Every queued functor satisfies the frame conditions when it runs. -/
theorem run_task_framed (t : Task) (wr : Int) (c : TcpConnection) :
    Framed (Event.runPending wr) c (t.run c wr).1 (t.run c wr).2 := by
  cases t with
  | sendInLoop message => exact sendInThread_framed _ c message wr
  | shutdownInLoop => exact shutdownInLoop_framed _ c

/-- A step of the loop appends the effects of one operation, which satisfies
the frame conditions. -/
theorem step_framed (w : World) (e : Event) :
    ∃ effs, (step w e).trace = w.trace ++ effs ∧ Framed e w.conn (step w e).conn effs := by
  cases e with
  | runPending wr =>
      cases hp : w.pending with
      | nil =>
          refine ⟨[], by simp [step, hp], ?_⟩
          have := apply_framed (Event.runPending wr) w.conn
          simpa [step, hp, Event.apply] using this
      | cons t rest =>
          exact ⟨(t.run w.conn wr).2, by simp [step, hp], by
            simpa [step, hp] using run_task_framed t wr w.conn⟩
  | _ =>
      rw [step_of_apply w _ (by intro wr h; cases h)]
      exact ⟨_, rfl, apply_framed _ _⟩


/-! ## Shutdown deferral -/

theorem halfCloses_append (a b : List Effect) :
    halfCloses (a ++ b) = halfCloses a + halfCloses b := by
  simp [halfCloses, List.count_append]

theorem halfCloses_pos (a : List Effect) : 0 < halfCloses a ↔ Effect.shutdownWrite ∈ a := by
  simp [halfCloses, List.count_pos_iff]

/-- Without an abrupt close, queued bytes always come with writable-interest. -/
theorem run_queuedImpliesWriting (w : World) (es : List Event)
    (hes : ∀ x ∈ es, x.isAbruptClose = false) (hq : QueuedImpliesWriting w.conn) :
    QueuedImpliesWriting (run w es).conn := by
  induction es using List.reverseRecOn with
  | nil => simpa [run] using hq
  | append_singleton es e ih =>
      rw [run_snoc]
      obtain ⟨effs, _, hf⟩ := step_framed (run w es) e
      exact hf.2.2.1 (hes e (by simp)) (ih (fun x hx => hes x (by simp [hx])))

/-- C3 (as amended): in every state reached from a new connection by any
sequence of operations, a step that performs the half-close leaves
writable-interest off (the functor `shutdownInLoop` makes it only when the
channel is not writing, `handleWrite` only after turning writing off), and
if no abrupt close (`handleClose`, or `handleRead` with a zero-byte read) came
before, the output buffer is empty at that step.  The output buffer is not
touched after the half-close within a step, so the buffer after the step is
the buffer at the half-close. -/
theorem half_close_deferred (es : List Event) (e : Event)
    (h : halfCloses (run World.init es).trace
          < halfCloses (step (run World.init es) e).trace) :
    (step (run World.init es) e).conn.channel_.isWriting = false ∧
    ((∀ x ∈ es, x.isAbruptClose = false) →
      (step (run World.init es) e).conn.outputBuffer_.readableBytes = 0) := by
  obtain ⟨effs, ht, hf⟩ := step_framed (run World.init es) e
  rw [ht, halfCloses_append] at h
  have hmem : Effect.shutdownWrite ∈ effs := (halfCloses_pos effs).mp (by omega)
  obtain ⟨hw, hb⟩ := hf.2.2.2.1 hmem
  refine ⟨hw, fun hes => ?_⟩
  have hq : QueuedImpliesWriting (run World.init es).conn :=
    run_queuedImpliesWriting World.init es hes (by simp [QueuedImpliesWriting, World.init,
      TcpConnection.new])
  simp [Buffer.readableBytes, hb hq]

/-- C3 (as amended) at a shutdown requested with two bytes queued: the
write-ready event that takes both bytes makes the half-close, with the
buffer empty. -/
theorem half_close_deferred_witness :
    halfCloses (run World.init shutdownWhileQueued).trace = 0 ∧
    (run World.init shutdownWhileQueued).conn.outputBuffer_.data = [1, 2] ∧
    halfCloses (step (run World.init shutdownWhileQueued) (Event.handleWrite 2)).trace = 1 ∧
    (step (run World.init shutdownWhileQueued) (Event.handleWrite 2)).conn.channel_.isWriting
      = false ∧
    (step (run World.init shutdownWhileQueued) (Event.handleWrite 2)).conn.outputBuffer_.readableBytes
      = 0 :=
  ⟨by decide, by decide, by decide,
    (half_close_deferred shutdownWhileQueued (Event.handleWrite 2) (by decide)).1,
    (half_close_deferred shutdownWhileQueued (Event.handleWrite 2) (by decide)).2 (by decide)⟩

/-- C3 as stated fails: after an abrupt close that left two bytes in the
output buffer, the functor queued by `shutdown()` performs the half-close
although the output buffer still holds those two bytes. -/
theorem half_close_with_bytes_queued :
    halfCloses (run World.init closeThenShutdown).trace = 0 ∧
    (run World.init closeThenShutdown).pending = [Task.shutdownInLoop] ∧
    (run World.init closeThenShutdown).conn.outputBuffer_.data = [1, 2] ∧
    halfCloses (step (run World.init closeThenShutdown) (Event.runPending 0)).trace = 1 ∧
    (step (run World.init closeThenShutdown) (Event.runPending 0)).conn.outputBuffer_.data
      = [1, 2] := by
  decide


/-! ## Number of half-closes -/

/-- C4 at the failing execution: `shutdown()` is called once with two bytes
queued, the buffer drains, every queued functor has run, and
`::shutdown(sockfd_, SHUT_WR)` has been called twice: once by `handleWrite`
when the buffer emptied and once more by the functor `shutdown()` queued. -/
theorem half_close_twice :
    (run World.init shutdownRace).pending = [] ∧
    (run World.init shutdownRace).conn.outputBuffer_.data = [] ∧
    (run World.init shutdownRace).trace =
      [Effect.connectionCallback, Effect.write [1, 2] 0,
        Effect.log LogLine.kernelSendBufferIsFull, Effect.runInLoop Task.shutdownInLoop,
        Effect.write [1, 2] 2, Effect.shutdownWrite, Effect.shutdownWrite] ∧
    halfCloses (run World.init shutdownRace).trace = 2 := by
  decide

/-! ## The shutdown request -/

/-- The shutdown-requested flag is never reset by a step of the loop. -/
theorem step_needDisconn (w : World) (e : Event) (h : w.conn.needDisconn_ = true) :
    (step w e).conn.needDisconn_ = true := by
  obtain ⟨_, _, hf⟩ := step_framed w e
  exact hf.1 h

theorem run_needDisconn (w : World) (es : List Event) (h : w.conn.needDisconn_ = true) :
    (run w es).conn.needDisconn_ = true := by
  induction es using List.reverseRecOn with
  | nil => simpa [run] using h
  | append_singleton es e ih => rw [run_snoc]; exact step_needDisconn _ e ih

/-- C5: the first `shutdown()` sets the shutdown-requested flag and queues
exactly one `shutdownInLoop` functor; a later `shutdown()` changes no field
and queues nothing, so calling it twice is the same as calling it once; and
no sequence of operations resets the flag once it is set. -/
theorem shutdown_idempotent (c : TcpConnection) :
    (c.needDisconn_ = false →
      c.shutdown = ({ c with needDisconn_ := true }, [Effect.runInLoop Task.shutdownInLoop])) ∧
    (c.needDisconn_ = true → c.shutdown = (c, [])) ∧
    c.shutdown.1.needDisconn_ = true ∧
    c.shutdown.1.shutdown = (c.shutdown.1, []) ∧
    (∀ (w : World) (es : List Event), w.conn.needDisconn_ = true →
      (run w es).conn.needDisconn_ = true) := by
  refine ⟨?_, ?_, ?_, ?_, run_needDisconn⟩ <;>
    cases h : c.needDisconn_ <;> simp [TcpConnection.shutdown, h]

/-- C5 on a freshly established connection: two calls of `shutdown()` queue
one functor, and the flag survives the abrupt close that follows. -/
theorem shutdown_idempotent_witness :
    World.established.conn.needDisconn_ = false ∧
    World.established.conn.shutdown.2 = [Effect.runInLoop Task.shutdownInLoop] ∧
    World.established.conn.shutdown.1.shutdown = (World.established.conn.shutdown.1, []) ∧
    (run (step World.established Event.shutdown)
      [Event.shutdown, Event.handleClose, Event.connectionDestroyed]).conn.needDisconn_ = true :=
  ⟨rfl,
    congrArg Prod.snd ((shutdown_idempotent World.established.conn).1 rfl),
    (shutdown_idempotent World.established.conn).2.2.2.1,
    (shutdown_idempotent World.established.conn).2.2.2.2
      (step World.established Event.shutdown) _ (by decide)⟩

/-! ## Coupling of the output buffer and writable-interest -/

/-- The coupling is kept by every run without an abrupt close. -/
theorem run_coupled (w : World) (es : List Event)
    (hes : ∀ x ∈ es, x.isAbruptClose = false) (hq : Coupled w.conn) :
    Coupled (run w es).conn := by
  induction es using List.reverseRecOn with
  | nil => simpa [run] using hq
  | append_singleton es e ih =>
      rw [run_snoc]
      obtain ⟨effs, _, hf⟩ := step_framed (run w es) e
      exact hf.2.2.2.2.2 (hes e (by simp)) (ih (fun x hx => hes x (by simp [hx])))

/-- C6: from a freshly established connection, after every step of every
sequence of owning-thread sends and write-ready events in which each write
returns at most the number of bytes offered, writable-interest is on exactly
when the output buffer is non-empty. -/
theorem coupling_under_sends_and_drains (es : List Event)
    (hes : ∀ e ∈ es, e.isLoopSendOrWrite = true)
    (_hw : ∀ p ∈ writes (run World.established es).trace, p.2 ≤ (p.1.length : Int))
    (k : Nat) :
    (run World.established (es.take k)).conn.channel_.isWriting = true ↔
      (run World.established (es.take k)).conn.outputBuffer_.readableBytes ≠ 0 := by
  have h : Coupled (run World.established (es.take k)).conn := by
    apply run_coupled
    · intro x hx
      have := hes x (List.mem_of_mem_take hx)
      cases x <;> simp_all [Event.isLoopSendOrWrite, Event.isAbruptClose]
    · decide
  exact h

/-- C6 on three sends and two drains, after each of the five steps. -/
theorem coupling_under_sends_and_drains_witness :
    (∀ e ∈ sendDrainRun, e.isLoopSendOrWrite = true) ∧
    (∀ p ∈ writes (run World.established sendDrainRun).trace, p.2 ≤ (p.1.length : Int)) ∧
    (run World.established (sendDrainRun.take 4)).conn.outputBuffer_.data = [3, 4, 5, 6] ∧
    ((run World.established (sendDrainRun.take 4)).conn.channel_.isWriting = true ↔
      (run World.established (sendDrainRun.take 4)).conn.outputBuffer_.readableBytes ≠ 0) ∧
    ((run World.established (sendDrainRun.take 5)).conn.channel_.isWriting = true ↔
      (run World.established (sendDrainRun.take 5)).conn.outputBuffer_.readableBytes ≠ 0) :=
  ⟨by decide, by decide, by decide,
    coupling_under_sends_and_drains sendDrainRun (by decide) (by decide) 4,
    coupling_under_sends_and_drains sendDrainRun (by decide) (by decide) 5⟩


/-- C7 (as amended): from every state that satisfies the coupling,
`connectionEstablished`, `connectionDestroyed`, `shutdown`, `shutdownInLoop`,
`handleError`, `handleRead` with a non-zero result, the sends and
`handleWrite` keep it; `handleClose`, and `handleRead` on a zero-byte read,
turn writable-interest off and leave the output buffer as it is, so they
keep the coupling exactly when the output buffer is empty. -/
theorem coupling_preserved (c : TcpConnection) (h : Coupled c) :
    Coupled c.connectionEstablished.1 ∧ Coupled c.connectionDestroyed.1 ∧
    Coupled c.shutdown.1 ∧ Coupled c.shutdownInLoop.1 ∧ Coupled c.handleError.1 ∧
    (∀ n incoming consumed, n ≠ 0 → Coupled (c.handleRead n incoming consumed).1) ∧
    (∀ t data wr, Coupled (c.send t data wr).1) ∧
    (∀ wr, Coupled (c.handleWrite wr).1) ∧
    c.handleClose.1.channel_.isWriting = false ∧
    c.handleClose.1.outputBuffer_ = c.outputBuffer_ ∧
    (Coupled c.handleClose.1 ↔ c.outputBuffer_.readableBytes = 0) ∧
    (∀ incoming consumed,
      (Coupled (c.handleRead 0 incoming consumed).1 ↔ c.outputBuffer_.readableBytes = 0)) := by
  refine ⟨?_, ?_, ?_, ?_, ?_, ?_, ?_, ?_, ?_, ?_, ?_, ?_⟩
  · exact (apply_framed Event.connectionEstablished c).2.2.2.2.2 rfl h
  · exact (apply_framed Event.connectionDestroyed c).2.2.2.2.2 rfl h
  · exact (apply_framed Event.shutdown c).2.2.2.2.2 rfl h
  · exact (shutdownInLoop_framed Event.shutdown c).2.2.2.2.2 rfl h
  · exact (apply_framed Event.handleError c).2.2.2.2.2 rfl h
  · intro n incoming consumed hn
    exact (apply_framed (Event.handleRead n incoming consumed) c).2.2.2.2.2
      (by simp [Event.isAbruptClose, hn]) h
  · intro t data wr
    exact (apply_framed (Event.send t data wr) c).2.2.2.2.2 rfl h
  · intro wr
    exact (apply_framed (Event.handleWrite wr) c).2.2.2.2.2 rfl h
  · rfl
  · rfl
  · simp [Coupled, TcpConnection.handleClose, Channel.disableAll, Channel.isWriting]
  · intro incoming consumed
    simp [Coupled, TcpConnection.handleRead, TcpConnection.handleClose, Channel.disableAll,
      Channel.isWriting, Buffer.readFd]

/-- C7 (as amended) on an established connection with one byte queued. -/
theorem coupling_preserved_witness :
    Coupled drainingConn ∧ Coupled drainingConn.shutdown.1 ∧
    Coupled drainingConn.connectionDestroyed.1 ∧
    (Coupled drainingConn.handleClose.1 ↔ drainingConn.outputBuffer_.readableBytes = 0) :=
  ⟨by decide, (coupling_preserved drainingConn (by decide)).2.2.1,
    (coupling_preserved drainingConn (by decide)).2.1,
    (coupling_preserved drainingConn (by decide)).2.2.2.2.2.2.2.2.2.2.1⟩

/-- C7 as stated fails: an established connection with one byte queued and
writable-interest on satisfies the coupling; after `handleClose`, and after
`handleRead` on a zero-byte read, the byte is still in the output buffer and
writable-interest is off. -/
theorem coupling_broken_by_close :
    Coupled drainingConn ∧
    ¬ Coupled drainingConn.handleClose.1 ∧
    ¬ Coupled (drainingConn.handleRead 0 [] 0).1 ∧
    drainingConn.handleClose.1.outputBuffer_.data = [1] ∧
    drainingConn.handleClose.1.channel_.isWriting = false := by
  decide

/-! ## Read errors -/

/-- C8 (as amended): `handleRead` with a negative read result writes a log
line and calls `handleError`, which reads the pending socket error and logs
it; no field of the connection changes (`connected_` and the event interest
stay as they were) and no removal task is posted. -/
theorem read_error_only_logs (c : TcpConnection) (n : Int) (hn : n < 0)
    (incoming : List Byte) (consumed : Nat) :
    c.handleRead n incoming consumed =
      (c, [Effect.log LogLine.handleReadReadvError, Effect.getsockoptSoError,
            Effect.log LogLine.soError]) ∧
    c.handleRead n incoming consumed =
      (c.handleError.1, Effect.log LogLine.handleReadReadvError :: c.handleError.2) ∧
    Effect.removeConnection ∉ (c.handleRead n incoming consumed).2 := by
  have h1 : ¬ (n > 0) := by omega
  have h2 : ¬ (n = 0) := by omega
  simp [TcpConnection.handleRead, TcpConnection.handleError, Buffer.readFd, h1, h2]

/-- C8 (as amended) on an established connection with one byte queued. -/
theorem read_error_only_logs_witness :
    (-1 : Int) < 0 ∧
    (drainingConn.handleRead (-1) [] 0).1 = drainingConn ∧
    Effect.removeConnection ∉ (drainingConn.handleRead (-1) [] 0).2 :=
  ⟨by decide, congrArg Prod.fst (read_error_only_logs drainingConn (-1) (by decide) [] 0).1,
    (read_error_only_logs drainingConn (-1) (by decide) [] 0).2.2⟩

/-- C8 as stated fails: on an established connection a read that returns -1
leaves `connected_` true and the interest on, and posts no removal task,
whereas `handleClose` sets `connected_` false, disables all interest and
posts the removal task. -/
theorem read_error_is_not_close :
    drainingConn.handleRead (-1) [] 0 ≠ drainingConn.handleClose ∧
    (drainingConn.handleRead (-1) [] 0).1.connected_ = true ∧
    (drainingConn.handleRead (-1) [] 0).1.channel_.reading = true ∧
    (drainingConn.handleRead (-1) [] 0).1.channel_.writing = true ∧
    Effect.removeConnection ∉ (drainingConn.handleRead (-1) [] 0).2 ∧
    drainingConn.handleClose.1.connected_ = false ∧
    drainingConn.handleClose.2 = [Effect.removeConnection] := by
  decide


/-! ## Abrupt close -/

/-- Once the connection is closed and not interested in writable events, no
later operation other than `connectionEstablished` writes to the socket or
touches the output buffer. -/
theorem run_closed (w : World) (es : List Event)
    (hes : ∀ x ∈ es, x ≠ Event.connectionEstablished)
    (hc : w.conn.connected_ = false) (hw : w.conn.channel_.writing = false) :
    (run w es).conn.connected_ = false ∧ (run w es).conn.channel_.writing = false ∧
    (run w es).conn.outputBuffer_ = w.conn.outputBuffer_ ∧
    writes (run w es).trace = writes w.trace := by
  induction es using List.reverseRecOn with
  | nil => simp [run, hc, hw]
  | append_singleton es e ih =>
      obtain ⟨ic, iw, ib, it⟩ := ih (fun x hx => hes x (by simp [hx]))
      rw [run_snoc]
      obtain ⟨effs, ht, hf⟩ := step_framed (run w es) e
      have he : e ≠ Event.connectionEstablished := hes e (by simp)
      obtain ⟨sw, sb, st⟩ := hf.2.2.2.2.1 he ic iw
      exact ⟨hf.2.1 he ic, sw, sb.trans ib, by rw [ht, writes_append, st, it]; simp⟩

/-- C9 (as amended): `handleClose`, and `handleRead` when the read returns
zero bytes, set `connected_` to false, disable readable and writable interest
and post exactly one removal task; the bytes queued in the output buffer stay
there: nothing is written at that step, and as long as the connection is not
established again no later operation writes to the socket or changes the
output buffer. -/
theorem abrupt_close_discards (w : World) (e : Event) (he : e.isAbruptClose = true)
    (es : List Event) (hes : ∀ x ∈ es, x ≠ Event.connectionEstablished) :
    (step w e).conn.connected_ = false ∧
    (step w e).conn.channel_.reading = false ∧
    (step w e).conn.channel_.writing = false ∧
    (step w e).trace = w.trace ++ [Effect.removeConnection] ∧
    (step w e).pending = w.pending ∧
    (step w e).conn.outputBuffer_ = w.conn.outputBuffer_ ∧
    writes (run (step w e) es).trace = writes w.trace ∧
    (run (step w e) es).conn.outputBuffer_ = w.conn.outputBuffer_ := by
  have hstep : (step w e).conn.connected_ = false ∧
      (step w e).conn.channel_.reading = false ∧
      (step w e).conn.channel_.writing = false ∧
      (step w e).trace = w.trace ++ [Effect.removeConnection] ∧
      (step w e).pending = w.pending ∧
      (step w e).conn.outputBuffer_ = w.conn.outputBuffer_ := by
    cases e with
    | handleClose =>
        simp [step, Event.apply, TcpConnection.handleClose, Channel.disableAll, posted]
    | handleRead n incoming consumed =>
        have hn : n = 0 := by simpa [Event.isAbruptClose] using he
        subst hn
        simp [step, Event.apply, TcpConnection.handleRead, TcpConnection.handleClose,
          Channel.disableAll, posted, Buffer.readFd]
    | _ => simp [Event.isAbruptClose] at he
  obtain ⟨h1, h2, h3, h4, h5, h6⟩ := hstep
  obtain ⟨_, _, rb, rt⟩ := run_closed (step w e) es hes h1 h3
  refine ⟨h1, h2, h3, h4, h5, h6, ?_, rb.trans h6⟩
  rw [rt, h4, writes_append]
  simp [writes]

/-- C9 (as amended) with 50 bytes queued when the peer's end of file is
read: the 50 bytes are still in the output buffer after every later operation
and nothing was written. -/
theorem abrupt_close_discards_witness :
    queued50.conn.outputBuffer_.readableBytes = 50 ∧
    (Event.handleRead 0 [] 0).isAbruptClose = true ∧
    (∀ x ∈ afterClose, x ≠ Event.connectionEstablished) ∧
    (step queued50 (Event.handleRead 0 [] 0)).conn.connected_ = false ∧
    (step queued50 (Event.handleRead 0 [] 0)).trace = [Effect.removeConnection] ∧
    writes (run (step queued50 (Event.handleRead 0 [] 0)) afterClose).trace = [] ∧
    (run (step queued50 (Event.handleRead 0 [] 0)) afterClose).conn.outputBuffer_
      = queued50.conn.outputBuffer_ :=
  ⟨by decide, by decide, by decide,
    (abrupt_close_discards queued50 (Event.handleRead 0 [] 0) (by decide) afterClose
      (by decide)).1,
    (abrupt_close_discards queued50 (Event.handleRead 0 [] 0) (by decide) afterClose
      (by decide)).2.2.2.1,
    (abrupt_close_discards queued50 (Event.handleRead 0 [] 0) (by decide) afterClose
      (by decide)).2.2.2.2.2.2.1,
    (abrupt_close_discards queued50 (Event.handleRead 0 [] 0) (by decide) afterClose
      (by decide)).2.2.2.2.2.2.2⟩


/-- C9 as stated fails: `connectionEstablished` has no guard, so when it is
called on the connection after the abrupt close, `connected_` is true again,
the next owning-thread send appends to the 50 stale bytes and turns
writable-interest on, and the write-ready event that follows offers the 50
bytes queued before the close to the kernel, which takes them. -/
theorem stale_bytes_written_after_reestablish :
    (step queued50 (Event.handleRead 0 [] 0)).conn.connected_ = false ∧
    (step queued50 (Event.handleRead 0 [] 0)).conn.outputBuffer_.data = List.replicate 50 0 ∧
    writes (step queued50 (Event.handleRead 0 [] 0)).trace = [] ∧
    writes (run (step queued50 (Event.handleRead 0 [] 0)) reestablishAndSend).trace
      = [(List.replicate 50 0 ++ [9], 51)] ∧
    accepted (run (step queued50 (Event.handleRead 0 [] 0)) reestablishAndSend).trace
      = List.replicate 50 0 ++ [9] ∧
    (run (step queued50 (Event.handleRead 0 [] 0)) reestablishAndSend).conn.outputBuffer_.data
      = [] := by
  decide

/-! ## `connected_` over the life of a connection -/

theorem run_cons (w : World) (e : Event) (es : List Event) :
    run w (e :: es) = run (step w e) es := rfl

theorem history_head (w : World) (es : List Event) :
    ∃ tl, history w es = w.conn.connected_ :: tl := by
  cases es with
  | nil => exact ⟨[], rfl⟩
  | cons e es => exact ⟨_, rfl⟩

/-- No operation other than `connectionEstablished` sets `connected_`. -/
theorem step_stays_disconnected (w : World) (e : Event)
    (he : e ≠ Event.connectionEstablished) (hc : w.conn.connected_ = false) :
    (step w e).conn.connected_ = false := by
  obtain ⟨_, _, hf⟩ := step_framed w e
  exact hf.2.1 he hc

theorem run_stays_disconnected (w : World) (es : List Event)
    (hes : ∀ x ∈ es, x ≠ Event.connectionEstablished) (hc : w.conn.connected_ = false) :
    (run w es).conn.connected_ = false := by
  induction es generalizing w with
  | nil => simpa [run] using hc
  | cons e es ih =>
      rw [run_cons]
      exact ih _ (fun x hx => hes x (by simp [hx]))
        (step_stays_disconnected w e (hes e (by simp)) hc)

theorem history_closed (w : World) (es : List Event)
    (hes : ∀ x ∈ es, x ≠ Event.connectionEstablished) (hc : w.conn.connected_ = false) :
    rises (history w es) = 0 ∧ falls (history w es) = 0 := by
  induction es generalizing w with
  | nil => simp [history, rises, falls]
  | cons e es ih =>
      have hs := step_stays_disconnected w e (hes e (by simp)) hc
      obtain ⟨hr, hf⟩ := ih (step w e) (fun x hx => hes x (by simp [hx])) hs
      obtain ⟨tl, htl⟩ := history_head (step w e) es
      rw [htl] at hr hf
      simp only [history, htl, rises, falls, hc, hs]
      simp [hs] at hr hf
      simp [hr, hf]

theorem history_open (w : World) (es : List Event)
    (hes : ∀ x ∈ es, x ≠ Event.connectionEstablished) (hc : w.conn.connected_ = true) :
    rises (history w es) = 0 ∧ falls (history w es) ≤ 1 ∧
    (falls (history w es) = 1 ↔ (run w es).conn.connected_ = false) := by
  induction es generalizing w with
  | nil => simp [history, rises, falls, run, hc]
  | cons e es ih =>
      have hes' : ∀ x ∈ es, x ≠ Event.connectionEstablished := fun x hx => hes x (by simp [hx])
      obtain ⟨tl, htl⟩ := history_head (step w e) es
      rw [run_cons]
      rcases Bool.eq_false_or_eq_true (step w e).conn.connected_ with hs | hs
      · obtain ⟨hr, hf, hiff⟩ := ih (step w e) hes' hs
        rw [htl] at hr hf hiff
        simp only [history, htl, rises, falls, hc, hs]
        simp [hs] at hr hf hiff
        simp [hr, hf, hiff]
      · obtain ⟨hr, hf⟩ := history_closed (step w e) es hes' hs
        have hfin := run_stays_disconnected (step w e) es hes' hs
        rw [htl] at hr hf
        simp only [history, htl, rises, falls, hc, hs]
        simp [hs] at hr hf
        simp [hr, hf, hfin]

/-- C10 (as amended): no operation other than `connectionEstablished` sets
`connected_` to true, from any state.  So over a sequence of operations that
starts with `connectionEstablished` on the new connection and does not call
it again, `connected_` changes from false to true exactly once and from true
to false at most once, exactly once when the connection has been closed (by
`handleClose` or by the half-close); once it is false after an operation it
is false after every later operation. -/
theorem connected_never_returns (es : List Event)
    (hes : ∀ x ∈ es, x ≠ Event.connectionEstablished) :
    rises (history World.init (Event.connectionEstablished :: es)) = 1 ∧
    falls (history World.init (Event.connectionEstablished :: es)) ≤ 1 ∧
    (falls (history World.init (Event.connectionEstablished :: es)) = 1 ↔
      (run World.init (Event.connectionEstablished :: es)).conn.connected_ = false) ∧
    (∀ k j, k ≤ j → (run World.established (es.take k)).conn.connected_ = false →
      (run World.established (es.take j)).conn.connected_ = false) ∧
    (∀ (w : World) (e : Event), e ≠ Event.connectionEstablished →
      w.conn.connected_ = false → (step w e).conn.connected_ = false) := by
  have hc : World.established.conn.connected_ = true := rfl
  obtain ⟨hr, hf, hiff⟩ := history_open World.established es hes hc
  obtain ⟨tl, htl⟩ := history_head World.established es
  have hstep : step World.init Event.connectionEstablished = World.established := rfl
  refine ⟨?_, ?_, ?_, ?_, step_stays_disconnected⟩
  · simp only [history, hstep]
    rw [htl] at hr ⊢
    simp [rises, hc, World.init, TcpConnection.new] at hr ⊢
    exact hr
  · simp only [history, hstep]
    rw [htl] at hf ⊢
    simp [falls, hc, World.init, TcpConnection.new] at hf ⊢
    exact hf
  · rw [run_cons, hstep, ← hiff]
    simp only [history, hstep]
    rw [htl]
    simp [falls, hc, World.init, TcpConnection.new]
  · intro k j hkj hk
    have hsplit : es.take j = es.take k ++ (es.take j).drop k := by
      have : es.take k = (es.take j).take k := by
        rw [List.take_take, Nat.min_eq_left hkj]
      rw [this, List.take_append_drop]
    rw [hsplit, run_append]
    apply run_stays_disconnected _ _ _ hk
    intro x hx
    exact hes x (List.mem_of_mem_take (List.mem_of_mem_drop hx))

/-- C10 (as amended) on a life that ends by half-close and then the peer's
end of file: one change to true, one change to false. -/
theorem connected_never_returns_witness :
    (∀ x ∈ fullLife, x ≠ Event.connectionEstablished) ∧
    history World.init (Event.connectionEstablished :: fullLife) =
      [false, true, true, true, true, false, false, false, false] ∧
    rises (history World.init (Event.connectionEstablished :: fullLife)) = 1 ∧
    falls (history World.init (Event.connectionEstablished :: fullLife)) = 1 :=
  ⟨by decide, by decide, (connected_never_returns fullLife (by decide)).1,
    ((connected_never_returns fullLife (by decide)).2.2.1).mpr (by decide)⟩


/-- C10 as stated fails: `connectionEstablished` assigns `connected_ = true`
without looking at the state, so on a connection that was established and
then closed by `handleClose` it sets `connected_` back to true, a second
change from false to true; and over a sequence in which the connection is
never closed `connected_` does not change from true to false at all. -/
theorem connected_returns_after_reestablish :
    history World.init closeAndReestablish = [false, true, false, true] ∧
    rises (history World.init closeAndReestablish) = 2 ∧
    (run World.init closeAndReestablish).conn.connected_ = true ∧
    history World.init [Event.connectionEstablished, Event.send true [1] 1] =
      [false, true, true] ∧
    falls (history World.init [Event.connectionEstablished, Event.send true [1] 1]) = 0 := by
  decide

/-! ## Cross-thread sends -/

/-- C11: on a connected connection a `send` made off the owning thread (raw
span or string view) changes no field and hands exactly one functor to the
loop, holding a copy of the payload.  Whenever that functor runs, in whatever
state `c'` the connection then is, it leaves the connection in the state that
`send` on the owning thread would leave it in and offers the same bytes to
the kernel, which are the payload itself whenever a write is made; while the
connection is still connected the two do exactly the same. -/
theorem cross_thread_send_deferred (c : TcpConnection) (hc : c.connected_ = true)
    (data : List Byte) (wr : Int) :
    c.send false data wr = (c, [Effect.runInLoop (Task.sendInLoop data)]) ∧
    c.sendStringPiece false data wr = (c, [Effect.runInLoop (Task.sendInLoop data)]) ∧
    posted (c.send false data wr).2 = [Task.sendInLoop data] ∧
    (∀ (c' : TcpConnection) (wr' : Int),
      ((Task.sendInLoop data).run c' wr').1 = (c'.send true data wr').1 ∧
      writes ((Task.sendInLoop data).run c' wr').2 = writes (c'.send true data wr').2 ∧
      (∀ p ∈ writes ((Task.sendInLoop data).run c' wr').2, p.1 = data) ∧
      (c'.connected_ = true → (Task.sendInLoop data).run c' wr' = c'.send true data wr')) ∧
    (∀ (w : World) (wr' : Int), w.conn = c → w.pending = [] →
      (run w [Event.send false data wr, Event.runPending wr']).conn
        = (run w [Event.send true data wr']).conn ∧
      writes (run w [Event.send false data wr, Event.runPending wr']).trace
        = writes (run w [Event.send true data wr']).trace) := by
  have hrun : ∀ (c' : TcpConnection) (wr' : Int),
      ((Task.sendInLoop data).run c' wr').1 = (c'.send true data wr').1 ∧
      writes ((Task.sendInLoop data).run c' wr').2 = writes (c'.send true data wr').2 ∧
      (∀ p ∈ writes ((Task.sendInLoop data).run c' wr').2, p.1 = data) ∧
      (c'.connected_ = true → (Task.sendInLoop data).run c' wr' = c'.send true data wr') := by
    intro c' wr'
    refine ⟨?_, ?_, ?_, ?_⟩
    · rcases Bool.eq_false_or_eq_true c'.connected_ with h | h <;>
        simp [Task.run, TcpConnection.sendInLoop, TcpConnection.send, h,
          TcpConnection.sendInThread]
    · rcases Bool.eq_false_or_eq_true c'.connected_ with h | h <;>
        simp [Task.run, TcpConnection.sendInLoop, TcpConnection.send, h,
          TcpConnection.sendInThread, writes]
    · intro p hp
      simp only [Task.run, TcpConnection.sendInLoop] at hp
      have heff := sendInThread_effects c' data wr'
      generalize (c'.sendInThread data wr').2 = effs at hp heff
      induction effs with
      | nil => simp [writes] at hp
      | cons x xs ih =>
          rcases heff x (by simp) with h | ⟨l, h⟩
          · subst h
            simp only [writes, List.mem_cons] at hp
            rcases hp with hp | hp
            · simp [hp]
            · exact ih hp (fun y hy => heff y (by simp [hy]))
          · subst h
            simp only [writes] at hp
            exact ih hp (fun y hy => heff y (by simp [hy]))
    · intro h
      simp [Task.run, TcpConnection.sendInLoop, TcpConnection.send, h]
  refine ⟨by simp [TcpConnection.send, hc], by simp [TcpConnection.sendStringPiece, hc],
    by simp [TcpConnection.send, hc, posted], hrun, ?_⟩
  intro w wr' hw hp
  have h1 : step w (Event.send false data wr)
      = { conn := c, pending := [Task.sendInLoop data],
          trace := w.trace ++ [Effect.runInLoop (Task.sendInLoop data)] } := by
    simp [step, Event.apply, TcpConnection.send, hw, hc, hp, posted]
  have h2 : step w (Event.send true data wr')
      = { conn := (c.send true data wr').1,
          pending := w.pending ++ posted (c.send true data wr').2,
          trace := w.trace ++ (c.send true data wr').2 } := by
    simp [step, Event.apply, hw]
  obtain ⟨r1, r2, _, _⟩ := hrun c wr'
  simp only [run, List.foldl_cons, List.foldl_nil, h1, h2]
  simp only [step]
  exact ⟨r1, by simp [writes_append, writes, r2]⟩

/-- C11 on "ping": the cross-thread send queues one functor and changes
nothing; after the loop has run it, the kernel has been offered "ping" once,
as with a send on the owning thread. -/
theorem cross_thread_send_deferred_witness :
    World.established.conn.connected_ = true ∧
    step World.established (Event.send false ping 0) =
      { World.established with
        pending := [Task.sendInLoop ping],
        trace := World.established.trace ++ [Effect.runInLoop (Task.sendInLoop ping)] } ∧
    writes (run World.established [Event.send false ping 0, Event.runPending 4]).trace
      = [(ping, 4)] ∧
    (run World.established [Event.send false ping 0, Event.runPending 4]).conn
      = (run World.established [Event.send true ping 4]).conn ∧
    writes (run World.established [Event.send false ping 0, Event.runPending 4]).trace
      = writes (run World.established [Event.send true ping 4]).trace :=
  ⟨rfl, by decide, by decide,
    ((cross_thread_send_deferred World.established.conn rfl ping 0).2.2.2.2
      World.established 4 rfl rfl).1,
    ((cross_thread_send_deferred World.established.conn rfl ping 0).2.2.2.2
      World.established 4 rfl rfl).2⟩


/-! ## The lifecycle callback and teardown -/

/-- The effects of `handleWrite` are a write, the half-close and log lines. -/
theorem handleWrite_effects (c : TcpConnection) (wr : Int) :
    ∀ x ∈ (c.handleWrite wr).2,
      x = Effect.write c.outputBuffer_.data wr ∨ x = Effect.shutdownWrite ∨
        ∃ l, x = Effect.log l := by
  intro x hx
  rcases Bool.eq_false_or_eq_true c.channel_.writing with hw | hw
  · by_cases h0 : 0 < wr
    · by_cases hr : c.outputBuffer_.data.drop wr.toNat = []
      · rcases Bool.eq_false_or_eq_true c.needDisconn_ with hn | hn
        · rw [handleWrite_drained_shutdown c wr hw h0 hr hn] at hx
          simp at hx; rcases hx with h | h <;> simp [h]
        · rw [handleWrite_drained c wr hw h0 hr hn] at hx
          simp at hx; simp [hx]
      · rw [handleWrite_short c wr hw h0 hr] at hx
        simp at hx; rcases hx with h | h <;> simp [h]
    · rw [handleWrite_nonpositive c wr hw (by omega)] at hx
      simp at hx; rcases hx with h | h <;> simp [h]
  · rw [handleWrite_idle c wr hw] at hx; simp at hx

theorem sendInThread_lifecycleFramed (e : Event) (c : TcpConnection) (data : List Byte)
    (wr : Int) : LifecycleFramed e (c.sendInThread data wr).1 (c.sendInThread data wr).2 := by
  have heff := sendInThread_effects c data wr
  refine ⟨fun _ _ h => ?_, fun h => ?_⟩ <;>
    rcases heff _ h with h | ⟨l, h⟩ <;> cases h

theorem apply_lifecycleFramed (e : Event) (c : TcpConnection) :
    LifecycleFramed e (e.apply c).1 (e.apply c).2 := by
  cases e with
  | connectionEstablished =>
      simp [LifecycleFramed, Event.apply, TcpConnection.connectionEstablished]
  | connectionDestroyed =>
      simp [LifecycleFramed, Event.apply, TcpConnection.connectionDestroyed]
  | send t data wr =>
      have h := sendInThread_lifecycleFramed (Event.send t data wr) c data wr
      cases hc : c.connected_ <;> cases t <;>
        simp_all [LifecycleFramed, Event.apply, TcpConnection.send]
  | sendStringPiece t data wr =>
      have h := sendInThread_lifecycleFramed (Event.sendStringPiece t data wr) c data wr
      cases hc : c.connected_ <;> cases t <;>
        simp_all [LifecycleFramed, Event.apply, TcpConnection.sendStringPiece]
  | sendBuffer t buffer wr =>
      have h := sendInThread_lifecycleFramed (Event.sendBuffer t buffer wr) c buffer.peek wr
      cases hc : c.connected_ <;> cases t <;>
        simp_all [LifecycleFramed, Event.apply, TcpConnection.sendBuffer]
  | shutdown =>
      cases hn : c.needDisconn_ <;>
        simp [LifecycleFramed, Event.apply, TcpConnection.shutdown, hn]
  | runPending wr => simp [LifecycleFramed, Event.apply]
  | handleRead n incoming consumed =>
      rcases lt_trichotomy n 0 with h | h | h
      · have h1 : ¬ (n > 0) := by omega
        have h2 : ¬ (n = 0) := by omega
        simp [LifecycleFramed, Event.apply, TcpConnection.handleRead, h1, h2,
          TcpConnection.handleError]
      · subst h
        simp [LifecycleFramed, Event.apply, TcpConnection.handleRead,
          TcpConnection.handleClose, Channel.disableAll]
      · simp [LifecycleFramed, Event.apply, TcpConnection.handleRead, h]
  | handleWrite wr =>
      have heff := handleWrite_effects c wr
      refine ⟨fun _ _ h => ?_, fun h => ?_⟩ <;>
        rcases heff _ h with h | h | ⟨l, h⟩ <;> cases h
  | handleClose =>
      simp [LifecycleFramed, Event.apply, TcpConnection.handleClose, Channel.disableAll]
  | handleError =>
      simp [LifecycleFramed, Event.apply, TcpConnection.handleError]

theorem step_lifecycleFramed (w : World) (e : Event) :
    ∃ effs, (step w e).trace = w.trace ++ effs ∧
      Framed e w.conn (step w e).conn effs ∧ LifecycleFramed e (step w e).conn effs := by
  cases e with
  | runPending wr =>
      cases hp : w.pending with
      | nil =>
          refine ⟨[], by simp [step, hp], ?_, ?_⟩
          · simpa [step, hp, Event.apply] using apply_framed (Event.runPending wr) w.conn
          · simpa [step, hp, Event.apply] using
              apply_lifecycleFramed (Event.runPending wr) w.conn
      | cons t rest =>
          refine ⟨(t.run w.conn wr).2, by simp [step, hp], by
            simpa [step, hp] using run_task_framed t wr w.conn, ?_⟩
          cases t with
          | sendInLoop message =>
              simpa [step, hp, Task.run, TcpConnection.sendInLoop] using
                sendInThread_lifecycleFramed (Event.runPending wr) w.conn message wr
          | shutdownInLoop =>
              cases hw : w.conn.channel_.writing <;>
                simp [step, hp, Task.run, TcpConnection.shutdownInLoop, LifecycleFramed,
                  Channel.isWriting, hw]
  | _ =>
      rw [step_of_apply w _ (by intro wr h; cases h)]
      exact ⟨_, rfl, apply_framed _ _, apply_lifecycleFramed _ _⟩

/-- Between establishment and destruction no operation invokes the connection
callback. -/
theorem run_no_callback (w : World) (es : List Event)
    (hes : ∀ x ∈ es, x ≠ Event.connectionEstablished ∧ x ≠ Event.connectionDestroyed) :
    ∃ mid, (run w es).trace = w.trace ++ mid ∧ Effect.connectionCallback ∉ mid := by
  induction es using List.reverseRecOn with
  | nil => exact ⟨[], by simp [run], by simp⟩
  | append_singleton es e ih =>
      obtain ⟨mid, hm, hn⟩ := ih (fun x hx => hes x (by simp [hx]))
      obtain ⟨effs, ht, _, hl⟩ := step_lifecycleFramed (run w es) e
      have he := hes e (by simp)
      refine ⟨mid ++ effs, by rw [run_snoc, ht, hm, List.append_assoc], ?_⟩
      simp only [List.mem_append, not_or]
      exact ⟨hn, hl.1 he.1 he.2⟩

/-- Once the removal task has been posted the connection stays closed with
writable-interest off, as long as it is not established again. -/
theorem run_removal_closed (w : World) (es : List Event)
    (hes : ∀ x ∈ es, x ≠ Event.connectionEstablished)
    (hw : Effect.removeConnection ∈ w.trace →
      w.conn.connected_ = false ∧ w.conn.channel_.writing = false)
    (hr : Effect.removeConnection ∈ (run w es).trace) :
    (run w es).conn.connected_ = false ∧ (run w es).conn.channel_.writing = false := by
  induction es using List.reverseRecOn with
  | nil => exact hw (by simpa [run] using hr)
  | append_singleton es e ih =>
      rw [run_snoc] at hr ⊢
      obtain ⟨effs, ht, hf, hl⟩ := step_lifecycleFramed (run w es) e
      have he : e ≠ Event.connectionEstablished := hes e (by simp)
      rw [ht, List.mem_append] at hr
      by_cases hnew : Effect.removeConnection ∈ effs
      · exact hl.2 hnew
      · have hold : Effect.removeConnection ∈ (run w es).trace := by
          rcases hr with h | h
          · exact h
          · exact absurd h hnew
        obtain ⟨ic, iw⟩ := ih (fun x hx => hes x (by simp [hx])) hold
        exact ⟨hf.2.1 he ic, (hf.2.2.2.2.1 he ic iw).1⟩

/-- C12 (as amended): `connectionEstablished` invokes the connection callback
once, sets `connected_` and enables reading; `connectionDestroyed` invokes it
once; no other operation invokes it, from any state, so over a life
(established, any operations, destroyed) it is invoked exactly twice, first
thing and last thing.  From every state `connectionDestroyed` disables
readable interest and removes the channel from the loop, and leaves
writable-interest as it was: no interest is left after it exactly when
writable-interest was off before it, which is so whenever the removal task
was posted before and the connection was not established again. -/
theorem lifecycle_callbacks (es : List Event)
    (hes : ∀ x ∈ es, x ≠ Event.connectionEstablished ∧ x ≠ Event.connectionDestroyed) :
    (∀ c : TcpConnection, c.connectionEstablished.2 = [Effect.connectionCallback] ∧
      c.connectionEstablished.1.connected_ = true ∧
      c.connectionEstablished.1.channel_.reading = true ∧
      c.connectionDestroyed.2 = [Effect.connectionCallback]) ∧
    (∀ c : TcpConnection, c.connectionDestroyed.1.channel_.reading = false ∧
      c.connectionDestroyed.1.channel_.removed = true ∧
      c.connectionDestroyed.1.channel_.isWriting = c.channel_.isWriting ∧
      ((c.connectionDestroyed.1.channel_.reading = false ∧
          c.connectionDestroyed.1.channel_.isWriting = false) ↔
        c.channel_.isWriting = false)) ∧
    (∀ (w : World) (e : Event), e ≠ Event.connectionEstablished →
      e ≠ Event.connectionDestroyed →
      (step w e).trace.count Effect.connectionCallback
        = w.trace.count Effect.connectionCallback) ∧
    (∃ mid, (run World.init (Event.connectionEstablished :: es
        ++ [Event.connectionDestroyed])).trace
        = Effect.connectionCallback :: mid ++ [Effect.connectionCallback] ∧
      Effect.connectionCallback ∉ mid) ∧
    (run World.init (Event.connectionEstablished :: es
        ++ [Event.connectionDestroyed])).trace.count Effect.connectionCallback = 2 ∧
    (Effect.removeConnection ∈ (run World.init (Event.connectionEstablished :: es)).trace →
      (run World.init (Event.connectionEstablished :: es
          ++ [Event.connectionDestroyed])).conn.channel_.reading = false ∧
      (run World.init (Event.connectionEstablished :: es
          ++ [Event.connectionDestroyed])).conn.channel_.writing = false ∧
      (run World.init (Event.connectionEstablished :: es
          ++ [Event.connectionDestroyed])).conn.channel_.removed = true) := by
  have hstep : step World.init Event.connectionEstablished = World.established := rfl
  have hrun : run World.init (Event.connectionEstablished :: es ++ [Event.connectionDestroyed])
      = step (run World.established es) Event.connectionDestroyed := by
    rw [List.cons_append, run_cons, hstep, run_snoc]
  have hdest : ∀ w : World, step w Event.connectionDestroyed
      = { conn := w.conn.connectionDestroyed.1, pending := w.pending,
          trace := w.trace ++ [Effect.connectionCallback] } := by
    intro w; simp [step, Event.apply, TcpConnection.connectionDestroyed, posted]
  obtain ⟨mid, hm, hn⟩ := run_no_callback World.established es hes
  have htr : (run World.init (Event.connectionEstablished :: es
      ++ [Event.connectionDestroyed])).trace
      = Effect.connectionCallback :: mid ++ [Effect.connectionCallback] := by
    rw [hrun, hdest, hm]; rfl
  refine ⟨fun c => ⟨rfl, rfl, rfl, rfl⟩, fun c => ⟨rfl, rfl, rfl, ?_⟩, fun w e h1 h2 => ?_,
    ⟨mid, htr, hn⟩, ?_, ?_⟩
  · simp [TcpConnection.connectionDestroyed, Channel.disableReading, Channel.remove,
      Channel.isWriting]
  · obtain ⟨effs, ht, _, hl⟩ := step_lifecycleFramed w e
    rw [ht, List.count_append, List.count_eq_zero_of_not_mem (hl.1 h1 h2), Nat.add_zero]
  · rw [htr]
    simp [List.count_append, List.count_cons, List.count_eq_zero_of_not_mem hn]
  · intro hr
    rw [run_cons, hstep] at hr
    obtain ⟨_, hw⟩ := run_removal_closed World.established es (fun x hx => (hes x hx).1)
      (by decide) hr
    rw [hrun, hdest]
    simp [TcpConnection.connectionDestroyed, Channel.disableReading, Channel.remove, hw]

/-- C12 (as amended) on a life that ends with the peer closing: two
callbacks, first and last in the trace, and no interest left after the
destruction. -/
theorem lifecycle_callbacks_witness :
    (∀ x ∈ lifeBeforeDestroy,
      x ≠ Event.connectionEstablished ∧ x ≠ Event.connectionDestroyed) ∧
    Effect.removeConnection ∈
      (run World.init (Event.connectionEstablished :: lifeBeforeDestroy)).trace ∧
    (run World.init (Event.connectionEstablished :: lifeBeforeDestroy
        ++ [Event.connectionDestroyed])).trace.count Effect.connectionCallback = 2 ∧
    (run World.init (Event.connectionEstablished :: lifeBeforeDestroy
        ++ [Event.connectionDestroyed])).conn.channel_
      = { reading := false, writing := false, removed := true } :=
  ⟨by decide, by decide, (lifecycle_callbacks lifeBeforeDestroy (by decide)).2.2.2.2.1,
    by
      have h := (lifecycle_callbacks lifeBeforeDestroy (by decide)).2.2.2.2.2 (by decide)
      generalize (run World.init (Event.connectionEstablished :: lifeBeforeDestroy
        ++ [Event.connectionDestroyed])).conn.channel_ = ch at h ⊢
      cases ch
      simp_all⟩

/-- C12 as stated fails: `connectionDestroyed` calls `disableReading()` and
`remove()` and never `disableWriting()`, so when it is called on an
established connection with one byte queued and writable-interest on,
writable-interest is still enabled on the channel afterwards. -/
theorem destroyed_while_draining :
    drainingConn.channel_.isWriting = true ∧
    drainingConn.connectionDestroyed.2 = [Effect.connectionCallback] ∧
    drainingConn.connectionDestroyed.1.channel_.reading = false ∧
    drainingConn.connectionDestroyed.1.channel_.isWriting = true ∧
    (run World.established [Event.send true [1] 0, Event.connectionDestroyed]).conn.channel_
      = { reading := false, writing := true, removed := true } := by
  decide

/-! ## Half-close when the buffer drains -/

/-- C13: with writable-interest on and shutdown requested, a write-ready
event whose write takes all the bytes left in the output buffer turns
writable-interest off, makes the half-close in the same step and sets
`connected_` to false; from then on every send is dropped and the output
buffer stays empty.  If bytes are left in the buffer after the event, no
half-close is made and `connected_` is as before. -/
theorem half_close_at_drain (c : TcpConnection) (hw : c.channel_.isWriting = true)
    (hn : c.needDisconn_ = true) (wr : Int) :
    (0 < c.outputBuffer_.readableBytes → wr = c.outputBuffer_.readableBytes →
      (c.handleWrite wr).2 = [Effect.write c.outputBuffer_.peek wr, Effect.shutdownWrite] ∧
      (c.handleWrite wr).1.channel_.isWriting = false ∧
      (c.handleWrite wr).1.connected_ = false ∧
      (c.handleWrite wr).1.outputBuffer_.readableBytes = 0 ∧
      (∀ t data wr', (c.handleWrite wr).1.send t data wr' = ((c.handleWrite wr).1, [])) ∧
      (∀ (w : World) (es : List Event), w.conn = (c.handleWrite wr).1 →
        (∀ x ∈ es, x ≠ Event.connectionEstablished) →
        (run w es).conn.outputBuffer_.readableBytes = 0 ∧ writes (run w es).trace = writes w.trace)) ∧
    ((c.handleWrite wr).1.outputBuffer_.readableBytes ≠ 0 →
      Effect.shutdownWrite ∉ (c.handleWrite wr).2 ∧
      (c.handleWrite wr).1.connected_ = c.connected_) := by
  have hw' : c.channel_.writing = true := hw
  constructor
  · intro hN hwr
    have h0 : 0 < wr := by omega
    have hr : c.outputBuffer_.data.drop wr.toNat = [] := by
      apply List.drop_eq_nil_of_le
      simp only [Buffer.readableBytes] at hwr
      omega
    have hres := handleWrite_drained_shutdown c wr hw' h0 hr hn
    have hc : (c.handleWrite wr).1.connected_ = false := by rw [hres]
    have hwoff : (c.handleWrite wr).1.channel_.writing = false := by
      rw [hres]; rfl
    have hb : (c.handleWrite wr).1.outputBuffer_ = { data := [] } := by rw [hres]
    refine ⟨by rw [hres]; rfl, hwoff, hc, by rw [hb]; rfl, ?_, ?_⟩
    · intro t data wr'
      simp [TcpConnection.send, hc]
    · intro w es hwc hes
      obtain ⟨_, _, rb, rt⟩ := run_closed w es hes (by rw [hwc]; exact hc)
        (by rw [hwc]; exact hwoff)
      exact ⟨by rw [rb, hwc, hb]; rfl, rt⟩
  · intro hne
    rcases handleWrite_cases c wr with ⟨h, hs⟩ | ⟨_, _, h, hs⟩ | ⟨_, hn', _, _⟩ | ⟨_, _, h, _⟩
    · exact ⟨hs, by rw [h]⟩
    · exact ⟨hs, by rw [h]⟩
    · rw [hn] at hn'; cases hn'
    · rw [h] at hne; simp [Buffer.readableBytes] at hne

/-- C13 on a closing connection with three bytes queued: a write of three
makes the half-close, a write of two does not. -/
theorem half_close_at_drain_witness :
    closingConn.channel_.isWriting = true ∧ closingConn.needDisconn_ = true ∧
    (closingConn.handleWrite 3).2 = [Effect.write [1, 2, 3] 3, Effect.shutdownWrite] ∧
    (closingConn.handleWrite 3).1.connected_ = false ∧
    (closingConn.handleWrite 2).1.outputBuffer_.data = [3] ∧
    Effect.shutdownWrite ∉ (closingConn.handleWrite 2).2 ∧
    (closingConn.handleWrite 2).1.connected_ = true :=
  ⟨rfl, rfl, ((half_close_at_drain closingConn rfl rfl 3).1 (by decide) (by decide)).1,
    ((half_close_at_drain closingConn rfl rfl 3).1 (by decide) (by decide)).2.2.1,
    by decide,
    ((half_close_at_drain closingConn rfl rfl 2).2 (by decide)).1,
    ((half_close_at_drain closingConn rfl rfl 2).2 (by decide)).2⟩


/-! ## The write path of `sendInThread` -/

/-- An abrupt close leaves the connection disconnected. -/
theorem step_abrupt_disconnects (w : World) (e : Event) (he : e.isAbruptClose = true) :
    (step w e).conn.connected_ = false := by
  cases e with
  | handleClose => simp [step, Event.apply, TcpConnection.handleClose]
  | handleRead n incoming consumed =>
      have hn : n = 0 := by simpa [Event.isAbruptClose] using he
      subst hn
      simp [step, Event.apply, TcpConnection.handleRead, TcpConnection.handleClose]
  | _ => simp [Event.isAbruptClose] at he

/-- In every state an established connection reaches while it is still
connected, queued bytes come with writable-interest. -/
theorem connected_queuedImpliesWriting (es : List Event)
    (hes : ∀ x ∈ es, x ≠ Event.connectionEstablished)
    (hc : (run World.established es).conn.connected_ = true) :
    QueuedImpliesWriting (run World.established es).conn := by
  induction es using List.reverseRecOn with
  | nil => decide
  | append_singleton es e ih =>
      rw [run_snoc] at hc ⊢
      have he : e ≠ Event.connectionEstablished := hes e (by simp)
      obtain ⟨effs, _, hf⟩ := step_framed (run World.established es) e
      have hprev : (run World.established es).conn.connected_ = true := by
        by_contra h
        have := hf.2.1 he (by simpa using h)
        rw [this] at hc; cases hc
      have hna : e.isAbruptClose = false := by
        by_contra h
        have := step_abrupt_disconnects (run World.established es) e (by simpa using h)
        rw [this] at hc; cases hc
      exact hf.2.2.1 hna (ih (fun x hx => hes x (by simp [hx])) hprev)

/-- C15: when `::write` returns a negative result, `sendInThread` (which made
the write, so the connection is connected) returns the connection unchanged:
nothing is appended, writable-interest is not enabled, `connected_` is still
true and the payload is logged as failed, not kept; `handleWrite` returns the
connection unchanged too and posts neither the removal task nor anything
else, and makes no half-close. -/
theorem write_error_keeps_state (c : TcpConnection) (data : List Byte) (wr : Int)
    (hneg : wr < 0) :
    (Effect.write data wr ∈ (c.sendInThread data wr).2 →
      c.sendInThread data wr =
        (c, [Effect.write data wr, Effect.log LogLine.sendInLoopWriteError]) ∧
      (c.sendInThread data wr).1.connected_ = true) ∧
    (c.handleWrite wr).1 = c ∧
    Effect.removeConnection ∉ (c.handleWrite wr).2 ∧
    Effect.shutdownWrite ∉ (c.handleWrite wr).2 ∧
    posted (c.handleWrite wr).2 = [] ∧
    (c.channel_.isWriting = true →
      (c.handleWrite wr).2 =
        [Effect.write c.outputBuffer_.peek wr, Effect.log LogLine.handleWriteWriteError]) := by
  refine ⟨fun hmem => ?_, ?_⟩
  · rcases Bool.eq_false_or_eq_true c.connected_ with hc | hc
    · by_cases hd : c.channel_.writing = false ∧ c.outputBuffer_.data = []
      · rw [sendInThread_direct_error c data wr hc hd.1 hd.2 hneg]
        exact ⟨rfl, hc⟩
      · by_cases hz : data = []
        · subst hz
          rw [sendInThread_queued_empty c wr hc hd] at hmem
          simp at hmem
        · rw [sendInThread_queued c data wr hc hd hz] at hmem
          simp at hmem
    · simp [TcpConnection.sendInThread, hc] at hmem
  · rcases Bool.eq_false_or_eq_true c.channel_.writing with hw | hw
    · rw [handleWrite_nonpositive c wr hw (by omega)]
      simp [posted, Buffer.peek]
    · rw [handleWrite_idle c wr hw]
      simp [posted, Channel.isWriting, hw]

/-- C15 on a freshly established connection (direct write fails) and on a
closing connection with three bytes queued (drain write fails). -/
theorem write_error_keeps_state_witness :
    ((-1 : Int) < 0) ∧
    World.established.conn.sendInThread [1, 2] (-1) =
      (World.established.conn,
        [Effect.write [1, 2] (-1), Effect.log LogLine.sendInLoopWriteError]) ∧
    (closingConn.handleWrite (-1)).1 = closingConn ∧
    Effect.shutdownWrite ∉ (closingConn.handleWrite (-1)).2 :=
  ⟨by decide,
    ((write_error_keeps_state World.established.conn [1, 2] (-1) (by decide)).1
      (by decide)).1,
    (write_error_keeps_state closingConn [] (-1) (by decide)).2.1,
    (write_error_keeps_state closingConn [] (-1) (by decide)).2.2.2.1⟩


/-! ## Draining the output buffer -/

/-- One write-ready event with a result between 1 and the length of the
output buffer drops that many bytes from its front; writable-interest stays
on exactly when bytes are left. -/
theorem handleWrite_progress (c : TcpConnection) (n : Int)
    (hw : c.channel_.writing = true) (h0 : 0 < n)
    (hn : n ≤ (c.outputBuffer_.data.length : Int)) :
    (c.handleWrite n).1.outputBuffer_.data = c.outputBuffer_.data.drop n.toNat ∧
    ((c.handleWrite n).1.channel_.writing = true ↔ n < (c.outputBuffer_.data.length : Int)) := by
  by_cases hr : c.outputBuffer_.data.drop n.toNat = []
  · have hlen : c.outputBuffer_.data.length ≤ n.toNat := List.drop_eq_nil_iff.mp hr
    have hnl : ¬ (n < (c.outputBuffer_.data.length : Int)) := by omega
    rcases Bool.eq_false_or_eq_true c.needDisconn_ with hd | hd
    · rw [handleWrite_drained_shutdown c n hw h0 hr hd]
      simp [hr, Channel.disableWriting, hnl]
    · rw [handleWrite_drained c n hw h0 hr hd]
      simp [hr, Channel.disableWriting, hnl]
  · have hlen : ¬ (c.outputBuffer_.data.length ≤ n.toNat) := fun h =>
      hr (List.drop_eq_nil_of_le h)
    have hnl : n < (c.outputBuffer_.data.length : Int) := by omega
    rw [handleWrite_short c n hw h0 hr]
    simp [hw, hnl]

theorem step_handleWrite (w : World) (n : Int) :
    (step w (Event.handleWrite n)).conn = (w.conn.handleWrite n).1 := by
  rw [step_of_apply w _ (by intro wr h; cases h)]
  rfl

/-- A run of write-ready events with positive results that together do not
exceed the length of the output buffer drops their sum from its front. -/
theorem run_handleWrites (ns : List Int) :
    ∀ w : World, w.conn.channel_.writing = true → (∀ n ∈ ns, 0 < n) →
      ns.sum ≤ (w.conn.outputBuffer_.data.length : Int) →
      0 < w.conn.outputBuffer_.data.length →
      (run w (ns.map Event.handleWrite)).conn.outputBuffer_.data
        = w.conn.outputBuffer_.data.drop ns.sum.toNat ∧
      ((run w (ns.map Event.handleWrite)).conn.channel_.writing = true ↔
        ns.sum < (w.conn.outputBuffer_.data.length : Int)) := by
  induction ns with
  | nil =>
      intro w hw _ _ hN
      simp [run, hw, hN]
  | cons n ns ih =>
      intro w hw hpos hsum hN
      have hn0 : 0 < n := hpos n (by simp)
      have hrest : ∀ m ∈ ns, 0 < m := fun m hm => hpos m (by simp [hm])
      have hnonneg : 0 ≤ ns.sum := List.sum_nonneg (fun m hm => (hrest m hm).le)
      rw [List.sum_cons] at hsum ⊢
      have hle : n ≤ (w.conn.outputBuffer_.data.length : Int) := by omega
      obtain ⟨hb, hwr⟩ := handleWrite_progress w.conn n hw hn0 hle
      rw [List.map_cons, run_cons]
      by_cases hlt : n < (w.conn.outputBuffer_.data.length : Int)
      · have hw' : (step w (Event.handleWrite n)).conn.channel_.writing = true := by
          rw [step_handleWrite]; exact hwr.mpr hlt
        have hb' : (step w (Event.handleWrite n)).conn.outputBuffer_.data
            = w.conn.outputBuffer_.data.drop n.toNat := by
          rw [step_handleWrite]; exact hb
        have hlen' : ((step w (Event.handleWrite n)).conn.outputBuffer_.data.length : Int)
            = (w.conn.outputBuffer_.data.length : Int) - n := by
          rw [hb', List.length_drop]; omega
        obtain ⟨ib, iw⟩ := ih (step w (Event.handleWrite n)) hw' hrest (by omega)
          (by rw [hb', List.length_drop]; omega)
        refine ⟨?_, ?_⟩
        · rw [ib, hb', List.drop_drop]
          congr 1
          omega
        · rw [iw, hlen']
          constructor <;> intro h <;> omega
      · have hz : ns.sum = 0 := by omega
        have hnil : ns = [] := by
          cases ns with
          | nil => rfl
          | cons m ms =>
              have hm : 0 < m := hrest m (by simp)
              have hms : 0 ≤ ms.sum :=
                List.sum_nonneg (fun x hx => (hrest x (by simp [hx])).le)
              rw [List.sum_cons] at hz
              omega
        subst hnil
        simp only [List.map_nil, run, List.foldl_nil, List.sum_nil, add_zero]
        rw [step_handleWrite]
        exact ⟨hb, hwr⟩

/-- C16: with writable-interest on and `N > 0` bytes in the output buffer, a
write-ready event whose write returns `n` with `0 < n ≤ N` removes the first
`n` bytes and keeps the other `N - n` in order; any sequence of write-ready
events with positive results that sum to `N` ends with the output buffer
empty and writable-interest off, and every event of the sequence makes the
buffer strictly shorter. -/
theorem drain_progress (w : World) (hw : w.conn.channel_.isWriting = true)
    (hN : 0 < w.conn.outputBuffer_.readableBytes) :
    (∀ n : Int, 0 < n → n ≤ w.conn.outputBuffer_.readableBytes →
      (w.conn.handleWrite n).1.outputBuffer_.data = w.conn.outputBuffer_.data.drop n.toNat ∧
      (w.conn.handleWrite n).1.outputBuffer_.readableBytes
        = w.conn.outputBuffer_.readableBytes - n.toNat) ∧
    (∀ ns : List Int, (∀ n ∈ ns, 0 < n) → ns.sum = w.conn.outputBuffer_.readableBytes →
      (run w (ns.map Event.handleWrite)).conn.outputBuffer_.readableBytes = 0 ∧
      (run w (ns.map Event.handleWrite)).conn.channel_.isWriting = false ∧
      (∀ (a : List Int) (n : Int) (b : List Int), ns = a ++ n :: b →
        (run w ((a ++ [n]).map Event.handleWrite)).conn.outputBuffer_.readableBytes
          < (run w (a.map Event.handleWrite)).conn.outputBuffer_.readableBytes)) := by
  have hw' : w.conn.channel_.writing = true := hw
  have hN' : 0 < w.conn.outputBuffer_.data.length := hN
  refine ⟨fun n h0 hn => ?_, fun ns hpos hsum => ?_⟩
  · obtain ⟨hb, _⟩ := handleWrite_progress w.conn n hw' h0 hn
    exact ⟨hb, by simp [Buffer.readableBytes, hb]⟩
  · simp only [Buffer.readableBytes] at hsum
    obtain ⟨hb, hwr⟩ := run_handleWrites ns w hw' hpos (by omega) hN'
    refine ⟨?_, ?_, fun a n b hsplit => ?_⟩
    · simp only [Buffer.readableBytes, hb, List.length_drop]
      omega
    · cases hfin : (run w (ns.map Event.handleWrite)).conn.channel_.writing with
      | false => simpa [Channel.isWriting] using hfin
      | true => have := hwr.mp hfin; omega
    · subst hsplit
      have ha : ∀ m ∈ a, 0 < m := fun m hm => hpos m (by simp [hm])
      have hn0 : 0 < n := hpos n (by simp)
      have hbn : 0 ≤ b.sum := List.sum_nonneg (fun m hm => (hpos m (by simp [hm])).le)
      have han : 0 ≤ a.sum := List.sum_nonneg (fun m hm => (ha m hm).le)
      simp only [List.sum_append, List.sum_cons] at hsum
      obtain ⟨hba, _⟩ := run_handleWrites a w hw' ha (by omega) hN'
      obtain ⟨hbb, _⟩ := run_handleWrites (a ++ [n]) w hw'
        (fun m hm => by
          rcases List.mem_append.mp hm with h | h
          · exact ha m h
          · simp at h; rw [h]; exact hn0)
        (by simp only [List.sum_append, List.sum_cons, List.sum_nil]; omega) hN'
      simp only [Buffer.readableBytes, hba, hbb, List.length_drop, List.sum_append,
        List.sum_cons, List.sum_nil]
      omega

/-- C16 on five queued bytes drained by writes of 2, 1 and 2. -/
theorem drain_progress_witness :
    drainingFive.conn.outputBuffer_.data = [4, 5, 6, 7, 8] ∧
    drainingFive.conn.channel_.isWriting = true ∧
    (drainingFive.conn.handleWrite 2).1.outputBuffer_.data = [6, 7, 8] ∧
    (run drainingFive ([2, 1, 2].map Event.handleWrite)).conn.outputBuffer_.readableBytes = 0 ∧
    (run drainingFive ([2, 1, 2].map Event.handleWrite)).conn.channel_.isWriting = false ∧
    (run drainingFive ([2, 1].map Event.handleWrite)).conn.outputBuffer_.readableBytes
      < (run drainingFive ([2].map Event.handleWrite)).conn.outputBuffer_.readableBytes :=
  ⟨by decide, by decide,
    ((drain_progress drainingFive (by decide) (by decide)).1 2 (by decide) (by decide)).1,
    ((drain_progress drainingFive (by decide) (by decide)).2 [2, 1, 2] (by decide)
      (by decide)).1,
    ((drain_progress drainingFive (by decide) (by decide)).2 [2, 1, 2] (by decide)
      (by decide)).2.1,
    ((drain_progress drainingFive (by decide) (by decide)).2 [2, 1, 2] (by decide)
      (by decide)).2.2 [2] 1 [2] rfl⟩


/-! ## Immediate shutdown -/

/-- C17 (as amended): on an Active connection (connected, shutdown not yet
requested) whose output buffer is empty, in a state that satisfies the
coupling (so writable-interest is off), `shutdown()` queues `shutdownInLoop`
and that functor makes the half-close and sets `connected_` to false.
Writable-interest is off afterwards; readable interest is left as it was, the
half-close stops sending and keeps receiving. -/
theorem immediate_shutdown (c : TcpConnection) (_hc : c.connected_ = true)
    (hn : c.needDisconn_ = false) (hb : c.outputBuffer_.readableBytes = 0)
    (hq : Coupled c) :
    c.shutdown = ({ c with needDisconn_ := true }, [Effect.runInLoop Task.shutdownInLoop]) ∧
    c.shutdown.1.shutdownInLoop =
      ({ c with needDisconn_ := true, connected_ := false }, [Effect.shutdownWrite]) ∧
    c.shutdown.1.shutdownInLoop.1.connected_ = false ∧
    c.shutdown.1.shutdownInLoop.1.channel_.isWriting = false ∧
    c.shutdown.1.shutdownInLoop.1.channel_.reading = c.channel_.reading ∧
    (∀ (w : World) (wr : Int), w.conn = c → w.pending = [] →
      (run w [Event.shutdown, Event.runPending wr]).trace
        = w.trace ++ [Effect.runInLoop Task.shutdownInLoop, Effect.shutdownWrite] ∧
      (run w [Event.shutdown, Event.runPending wr]).conn
        = { c with needDisconn_ := true, connected_ := false }) := by
  have hw : c.channel_.writing = false := by
    have h := hq
    simp only [Coupled, hb, ne_eq, not_true_eq_false, iff_false, Channel.isWriting] at h
    simpa using h
  have h1 : c.shutdown
      = ({ c with needDisconn_ := true }, [Effect.runInLoop Task.shutdownInLoop]) := by
    simp [TcpConnection.shutdown, hn]
  have h2 : c.shutdown.1.shutdownInLoop =
      ({ c with needDisconn_ := true, connected_ := false }, [Effect.shutdownWrite]) := by
    rw [h1]; simp [TcpConnection.shutdownInLoop, Channel.isWriting, hw]
  refine ⟨h1, h2, by rw [h2], by rw [h2]; simpa [Channel.isWriting] using hw, by rw [h2], ?_⟩
  intro w wr hwc hp
  have hs : step w Event.shutdown
      = { conn := { c with needDisconn_ := true }, pending := [Task.shutdownInLoop],
          trace := w.trace ++ [Effect.runInLoop Task.shutdownInLoop] } := by
    simp [step, Event.apply, hwc, h1, hp, posted]
  rw [h1] at h2
  simp only [run, List.foldl_cons, List.foldl_nil, hs]
  simp only [step, Task.run, h2]
  simp [posted]

/-- C17 (as amended) on a freshly established connection. -/
theorem immediate_shutdown_witness :
    World.established.conn.connected_ = true ∧
    World.established.conn.needDisconn_ = false ∧
    World.established.conn.outputBuffer_.readableBytes = 0 ∧
    Coupled World.established.conn ∧
    World.established.conn.shutdown.1.shutdownInLoop.2 = [Effect.shutdownWrite] ∧
    World.established.conn.shutdown.1.shutdownInLoop.1.connected_ = false ∧
    World.established.conn.shutdown.1.shutdownInLoop.1.channel_.isWriting = false :=
  ⟨rfl, rfl, rfl, by decide,
    congrArg Prod.snd (immediate_shutdown World.established.conn rfl rfl rfl (by decide)).2.1,
    (immediate_shutdown World.established.conn rfl rfl rfl (by decide)).2.2.1,
    (immediate_shutdown World.established.conn rfl rfl rfl (by decide)).2.2.2.1⟩

/-- C17 as stated fails: on a freshly established connection (connected, no
shutdown requested, output buffer empty) `shutdown()` and its functor make the
half-close and set `connected_` to false, and readable interest is still
enabled afterwards. -/
theorem immediate_shutdown_keeps_reading :
    World.established.conn.connected_ = true ∧
    World.established.conn.needDisconn_ = false ∧
    World.established.conn.outputBuffer_.readableBytes = 0 ∧
    halfCloses (run World.established [Event.shutdown, Event.runPending 0]).trace = 1 ∧
    (run World.established [Event.shutdown, Event.runPending 0]).pending = [] ∧
    (run World.established [Event.shutdown, Event.runPending 0]).conn.connected_ = false ∧
    (run World.established [Event.shutdown, Event.runPending 0]).conn.channel_.reading = true := by
  decide


/-! ## Sends while closing -/

theorem step_handleWrite_trace (w : World) (n : Int) :
    (step w (Event.handleWrite n)).trace = w.trace ++ (w.conn.handleWrite n).2 := by
  rw [step_of_apply w _ (by intro wr h; cases h)]
  rfl

/-- A write-ready event keeps the byte stream: what the kernel took at the
event followed by the new output buffer is the old output buffer; and an
event that makes the half-close leaves the buffer empty and writable-interest
off. -/
theorem handleWrite_keeps_stream (c : TcpConnection) (wr : Int) :
    accepted (c.handleWrite wr).2 ++ (c.handleWrite wr).1.outputBuffer_.data
      = c.outputBuffer_.data ∧
    (Effect.shutdownWrite ∈ (c.handleWrite wr).2 →
      (c.handleWrite wr).1.outputBuffer_.data = [] ∧
      (c.handleWrite wr).1.channel_.writing = false) := by
  rcases Bool.eq_false_or_eq_true c.channel_.writing with hw | hw
  · by_cases h0 : 0 < wr
    · by_cases hr : c.outputBuffer_.data.drop wr.toNat = []
      · have hlen := List.drop_eq_nil_iff.mp hr
        rcases Bool.eq_false_or_eq_true c.needDisconn_ with hn | hn
        · rw [handleWrite_drained_shutdown c wr hw h0 hr hn]
          simp [accepted, List.take_of_length_le hlen, Channel.disableWriting]
        · rw [handleWrite_drained c wr hw h0 hr hn]
          simp [accepted, List.take_of_length_le hlen]
      · rw [handleWrite_short c wr hw h0 hr]
        simp [accepted]
    · rw [handleWrite_nonpositive c wr hw (by omega)]
      have : wr.toNat = 0 := by omega
      simp [accepted, this]
  · rw [handleWrite_idle c wr hw]
    simp [accepted]

/-- Along write-ready events the byte stream is kept, and once the half-close
has been made the output buffer is empty. -/
theorem run_handleWrites_stream (ns : List Int) :
    ∀ w : World,
      accepted (run w (ns.map Event.handleWrite)).trace
          ++ (run w (ns.map Event.handleWrite)).conn.outputBuffer_.data
        = accepted w.trace ++ w.conn.outputBuffer_.data ∧
      ((0 < halfCloses w.trace →
          w.conn.outputBuffer_.data = [] ∧ w.conn.channel_.writing = false) →
        0 < halfCloses (run w (ns.map Event.handleWrite)).trace →
        (run w (ns.map Event.handleWrite)).conn.outputBuffer_.data = []) := by
  induction ns with
  | nil =>
      intro w
      exact ⟨by simp [run], fun h hh => (h (by simpa [run] using hh)).1⟩
  | cons n ns ih =>
      intro w
      obtain ⟨hs, hh⟩ := handleWrite_keeps_stream w.conn n
      obtain ⟨is, ih2⟩ := ih (step w (Event.handleWrite n))
      rw [List.map_cons, run_cons]
      refine ⟨?_, fun hinv hfin => ?_⟩
      · rw [is, step_handleWrite_trace, step_handleWrite, accepted_append, List.append_assoc, hs]
      · apply ih2 _ hfin
        intro hpos
        rw [step_handleWrite_trace, halfCloses_append] at hpos
        rw [step_handleWrite]
        by_cases hnew : Effect.shutdownWrite ∈ (w.conn.handleWrite n).2
        · exact hh hnew
        · have hz : halfCloses (w.conn.handleWrite n).2 = 0 := by
            by_contra hne
            exact hnew ((halfCloses_pos _).mp (Nat.pos_of_ne_zero hne))
          obtain ⟨hb, hw⟩ := hinv (by omega)
          rw [handleWrite_idle w.conn n hw]
          exact ⟨hb, hw⟩

/-- C18: in the Closing state (shutdown requested, writable-interest on) the
functor `shutdownInLoop` does nothing, so `connected_` stays true; an
owning-thread send of a non-empty payload then makes no direct write and
appends the whole payload to the output buffer.  The write-ready event that
makes the half-close is one that was offered the old bytes and the payload
and took them all, and over any sequence of write-ready events the kernel
has accepted the old bytes followed by the payload by the time the
half-close is made. -/
theorem send_while_closing (c : TcpConnection) (hc : c.connected_ = true)
    (_hn : c.needDisconn_ = true) (hw : c.channel_.isWriting = true)
    (data : List Byte) (hd : data ≠ []) (wr : Int) :
    c.shutdownInLoop = (c, []) ∧
    c.send true data wr =
      ({ c with outputBuffer_ := { data := c.outputBuffer_.data ++ data } },
        [Effect.log LogLine.kernelSendBufferIsFull]) ∧
    (∀ wr' : Int, Effect.shutdownWrite ∈ ((c.send true data wr).1.handleWrite wr').2 →
      ((c.send true data wr).1.handleWrite wr').2
        = [Effect.write (c.outputBuffer_.data ++ data) wr', Effect.shutdownWrite] ∧
      ((c.outputBuffer_.data ++ data).length : Int) ≤ wr') ∧
    (∀ ns : List Int,
      0 < halfCloses (run { conn := (c.send true data wr).1, pending := [], trace := [] }
        (ns.map Event.handleWrite)).trace →
      accepted (run { conn := (c.send true data wr).1, pending := [], trace := [] }
        (ns.map Event.handleWrite)).trace = c.outputBuffer_.data ++ data) := by
  have hw' : c.channel_.writing = true := hw
  have hq : ¬ (c.channel_.writing = false ∧ c.outputBuffer_.data = []) := by
    intro h; rw [hw'] at h; cases h.1
  have hsend : c.send true data wr =
      ({ c with outputBuffer_ := { data := c.outputBuffer_.data ++ data } },
        [Effect.log LogLine.kernelSendBufferIsFull]) := by
    simp only [TcpConnection.send, hc, if_true]
    rw [sendInThread_queued c data wr hc hq hd]
    cases hch : c.channel_
    simp_all
  refine ⟨by simp [TcpConnection.shutdownInLoop, hw], hsend, fun wr' hmem => ?_, fun ns hfin => ?_⟩
  · rw [hsend] at hmem ⊢
    simp only at hmem ⊢
    rcases handleWrite_cases
        { c with outputBuffer_ := { data := c.outputBuffer_.data ++ data } } wr'
      with ⟨_, hs⟩ | ⟨_, _, _, hs⟩ | ⟨_, _, _, hs⟩ | ⟨_, _, _, he⟩
    · exact absurd hmem hs
    · exact absurd hmem hs
    · exact absurd hmem hs
    · refine ⟨he, ?_⟩
      by_contra hlt
      have h0 : 0 < wr' ∨ wr' ≤ 0 := by omega
      rcases h0 with h0 | h0
      · have hr : (c.outputBuffer_.data ++ data).drop wr'.toNat ≠ [] := by
          intro hnil
          have := List.drop_eq_nil_iff.mp hnil
          omega
        have := handleWrite_short
          { c with outputBuffer_ := { data := c.outputBuffer_.data ++ data } } wr' hw' h0 hr
        rw [this] at hmem
        simp at hmem
      · have := handleWrite_nonpositive
          { c with outputBuffer_ := { data := c.outputBuffer_.data ++ data } } wr' hw' h0
        rw [this] at hmem
        simp at hmem
  · obtain ⟨hs, hh⟩ := run_handleWrites_stream ns
      { conn := (c.send true data wr).1, pending := [], trace := [] }
    have hempty := hh (fun h => by simp [halfCloses] at h) hfin
    rw [hempty, List.append_nil] at hs
    rw [hs, hsend]
    simp [accepted]

/-- C18 on a closing connection with three bytes queued: a later send of two
bytes is appended, and the half-close comes with the write that takes all
five. -/
theorem send_while_closing_witness :
    closingConn.connected_ = true ∧ closingConn.needDisconn_ = true ∧
    closingConn.channel_.isWriting = true ∧
    closingConn.shutdownInLoop = (closingConn, []) ∧
    (closingConn.send true [4, 5] 2).1.outputBuffer_.data = [1, 2, 3, 4, 5] ∧
    halfCloses (run { conn := (closingConn.send true [4, 5] 2).1, pending := [], trace := [] }
      ([3, 2].map Event.handleWrite)).trace = 1 ∧
    accepted (run { conn := (closingConn.send true [4, 5] 2).1, pending := [], trace := [] }
      ([3, 2].map Event.handleWrite)).trace = [1, 2, 3, 4, 5] :=
  ⟨rfl, rfl, rfl,
    (send_while_closing closingConn rfl rfl rfl [4, 5] (by decide) 2).1,
    by decide, by decide,
    (send_while_closing closingConn rfl rfl rfl [4, 5] (by decide) 2).2.2.2 [3, 2]
      (by decide)⟩

/-! ## The caller's buffer in `send(Buffer*)` -/

/-- C19: `send(Buffer*)` on a connected connection leaves the caller's
buffer as it was when called on the owning thread (it only peeks) and leaves
it with no readable bytes when called from another thread (the bytes move
into the queued functor); on a disconnected connection the caller's buffer is
unchanged on both paths. -/
theorem sendBuffer_caller_buffer (c : TcpConnection) (buffer : Buffer) (wr : Int) :
    (c.connected_ = true →
      (c.sendBuffer true buffer wr).2.1 = buffer ∧
      (c.sendBuffer true buffer wr).1 = (c.sendInThread buffer.peek wr).1 ∧
      (c.sendBuffer false buffer wr).2.1.readableBytes = 0 ∧
      (c.sendBuffer false buffer wr).2.2 = [Effect.runInLoop (Task.sendInLoop buffer.peek)] ∧
      (c.sendBuffer false buffer wr).1 = c) ∧
    (c.connected_ = false →
      ∀ t, (c.sendBuffer t buffer wr).2.1 = buffer ∧ (c.sendBuffer t buffer wr).1 = c ∧
        (c.sendBuffer t buffer wr).2.2 = []) := by
  constructor
  · intro hc
    simp [TcpConnection.sendBuffer, hc, Buffer.retrieveAllAsString, Buffer.readableBytes,
      Buffer.peek]
  · intro hc t
    simp [TcpConnection.sendBuffer, hc]

/-- C19 on a caller's buffer holding "ping". -/
theorem sendBuffer_caller_buffer_witness :
    World.established.conn.connected_ = true ∧ closedWithQueue.connected_ = false ∧
    (World.established.conn.sendBuffer true { data := ping } 4).2.1 = { data := ping } ∧
    (World.established.conn.sendBuffer false { data := ping } 4).2.1.readableBytes = 0 ∧
    (closedWithQueue.sendBuffer false { data := ping } 4).2.1 = { data := ping } :=
  ⟨rfl, rfl,
    ((sendBuffer_caller_buffer World.established.conn { data := ping } 4).1 rfl).1,
    ((sendBuffer_caller_buffer World.established.conn { data := ping } 4).1 rfl).2.2.1,
    ((sendBuffer_caller_buffer closedWithQueue { data := ping } 4).2 rfl false).1⟩

end lfp
